import Mathlib

/-!
# edabrt: electrostatic deflector aberrations

A shallow embedding of `src/edabrt.c` (functions `calculate_aberration` and
`print_aberrations`) together with theorems about it.

Conventions of the embedding:
* C `double` values are modelled as real numbers, C `int` values as integers;
* `M_PI` is `Real.pi`, `sqrt`/`sin`/`cos`/`sinh`/`cosh` are the real functions,
  the C library function `pow` is the real power function;
* a `switch` over integer case labels is an `if`/`else if` chain over the same
  labels (the labels `01` and `02` are octal literals with the values 1 and 2).
-/

open Filter Topology

namespace Edabrt

/-! ## The coefficient evaluator -/

/-- The C library function `pow` on doubles, as the real power function. -/
noncomputable def pow (x y : ℝ) : ℝ := x ^ y

/-- Embedding of `calculate_aberration` (src/edabrt.c, lines 21-170). -/
noncomputable def calculate_aberration (radius ang n1 n2 : ℝ) (index1 index2 : ℤ) : ℝ :=
  let s := radius * (Real.pi / 180) * ang
  let h := 1 / radius
  if n1 < 3 then
    let s3n1 := h * Real.sqrt (3 - n1)
    if index1 = 1 then
      if index2 = 10 then
        Real.cos (s3n1 * s)
      else if index2 = 1 then
        Real.sin (s3n1 * s) / s3n1
      else if index2 = 20 then
        -4 * h * (9 * n1 + 2 * n2 - 15 + (6 * n1 + n2 - 12) * Real.cos (s3n1 * s)) *
          pow (Real.sin (s3n1 * s / 2)) 2 / (3 * (n1 - 3))
      else if index2 = 11 then
        -2 * pow h 3 * (3 - 3 * n1 - n2 + (6 * n1 + n2 - 12) * Real.cos (s3n1 * s)) *
          Real.sin (s3n1 * s) / (3 * pow (h * h * (3 - n1)) 1.5)
      else if index2 = 2 then
        -4 * (3 - 3 * n1 - n2 + (6 * n1 + n2 - 12) * Real.cos (s3n1 * s)) *
          pow (Real.sin (s3n1 * s / 2)) 2 / (3 * h * pow (n1 - 3) 2)
      else 0
    else if index1 = 2 then
      if index2 = 10 then
        -s3n1 * Real.sin (s3n1 * s)
      else if index2 = 1 then
        Real.cos (s3n1 * s)
      else if index2 = 20 then
        2 * pow h 3 * (3 * n1 + n2 - 3) * (Real.sin (s3n1 * s) + Real.sin (2 * s3n1 * s)) /
          (3 * s3n1)
      else if index2 = 11 then
        -4 * h * (3 * n1 + n2 - 3) * (1 + 2 * Real.cos (s3n1 * s)) *
          pow (Real.sin (s3n1 * s / 2)) 2 / (3 * (n1 - 3))
      else if index2 = 2 then
        -2 * pow h 3 * (15 - 9 * n1 - 2 * n2 + 2 * (3 * n1 + n2 - 3) * Real.cos (s3n1 * s)) *
          Real.sin (s3n1 * s) / (3 * pow (h * h * (3 - n1)) 1.5)
      else 0
    else 0
  else if n1 > 3 then
    let s3n1 := h * Real.sqrt (n1 - 3)
    if index1 = 1 then
      if index2 = 10 then
        Real.cosh (s3n1 * s)
      else if index2 = 1 then
        -Real.sinh (s3n1 * s) / s3n1
      else if index2 = 20 then
        h * (4 * (3 * n1 + n2 - 3) * Real.cosh (s3n1 * s) -
              3 * (4 * n1 + n2 - 6) * (2 * Real.cosh (2 * s3n1 * s) - 1) -
              (6 + n2) * Real.cosh (4 * s3n1 * s)) / (6 * (n1 - 3))
      else if index2 = 11 then
        (4 * (3 * n1 + n2 - 3) * Real.sinh (s3n1 * s) -
            (6 + n2) * Real.sinh (4 * s3n1 * s)) / (6 * pow (n1 - 3) 1.5)
      else if index2 = 2 then
        -(4 * (9 * n1 + 2 * n2 - 15) * Real.cosh (s3n1 * s) -
            3 * (4 * n1 + n2 - 6) * (2 * Real.cosh (2 * s3n1 * s) + 1) +
            (6 + n2) * Real.cosh (4 * s3n1 * s)) / (6 * h * pow (n1 - 3) 2)
      else 0
    else if index1 = 2 then
      if index2 = 10 then
        s3n1 * Real.sinh (s3n1 * s)
      else if index2 = 1 then
        Real.cosh (s3n1 * s)
      else if index2 = 20 then
        2 * h * h * h * (3 * n1 + n2 - 3) *
          (Real.sinh (s3n1 * s) + Real.sinh (2 * s3n1 * s)) / (3 * s3n1)
      else if index2 = 11 then
        2 * h * (3 * n1 + n2 - 3) *
          (Real.cosh (2 * s3n1 * s) - Real.cosh (s3n1 * s)) / (3 * (n1 - 3))
      else if index2 = 2 then
        2 * (15 - 9 * n1 - 2 * n2 + 2 * (3 * n1 + n2 - 3) * Real.cosh (s3n1 * s)) *
          Real.sinh (s3n1 * s) / (3 * pow (n1 - 3) 1.5)
      else 0
    else 0
  else
    if index1 = 1 then
      if index2 = 10 then 1
      else if index2 = 1 then s
      else if index2 = 20 then h * h * h * (6 + n2) * s * s
      else if index2 = 11 then 2 * h * s + h * h * h * (6 + n2) * s * s * s / 3
      else if index2 = 2 then h * s * s * (6 + h * h * (6 + n2) * s * s) / 6
      else 0
    else if index1 = 2 then
      if index2 = 10 then 0
      else if index2 = 1 then 1
      else if index2 = 20 then 2 * h * h * h * (6 + n2) * s
      else if index2 = 11 then h * h * h * (6 + n2) * s * s
      else if index2 = 2 then 2 * h * s * (h * h * (6 + n2) * s * s - 3) / 3
      else 0
    else 0

/-! ## The formulas of the specification (section 4.1)

The three tables below follow the text of the specification, not the code:
`k` is the wavenumber of the regime, `h` the curvature and `s` the arc length.
Squares and cubes are natural powers, `^1.5` is the real power. -/

/-- Regime A (oscillatory) table of the specification. -/
noncomputable def spec_regime_A (h k s n1 n2 : ℝ) (row term : ℤ) : ℝ :=
  if row = 1 then
    if term = 10 then Real.cos (k * s)
    else if term = 1 then Real.sin (k * s) / k
    else if term = 20 then
      -4 * h * (9 * n1 + 2 * n2 - 15 + (6 * n1 + n2 - 12) * Real.cos (k * s)) *
        Real.sin (k * s / 2) ^ 2 / (3 * (n1 - 3))
    else if term = 11 then
      -2 * h ^ 3 * (3 - 3 * n1 - n2 + (6 * n1 + n2 - 12) * Real.cos (k * s)) *
        Real.sin (k * s) / (3 * (h ^ 2 * (3 - n1)) ^ (1.5 : ℝ))
    else if term = 2 then
      -4 * (3 - 3 * n1 - n2 + (6 * n1 + n2 - 12) * Real.cos (k * s)) *
        Real.sin (k * s / 2) ^ 2 / (3 * h * (n1 - 3) ^ 2)
    else 0
  else if row = 2 then
    if term = 10 then -k * Real.sin (k * s)
    else if term = 1 then Real.cos (k * s)
    else if term = 20 then
      2 * h ^ 3 * (3 * n1 + n2 - 3) * (Real.sin (k * s) + Real.sin (2 * k * s)) / (3 * k)
    else if term = 11 then
      -4 * h * (3 * n1 + n2 - 3) * (1 + 2 * Real.cos (k * s)) *
        Real.sin (k * s / 2) ^ 2 / (3 * (n1 - 3))
    else if term = 2 then
      -2 * h ^ 3 * (15 - 9 * n1 - 2 * n2 + 2 * (3 * n1 + n2 - 3) * Real.cos (k * s)) *
        Real.sin (k * s) / (3 * (h ^ 2 * (3 - n1)) ^ (1.5 : ℝ))
    else 0
  else 0

/-- Regime B (hyperbolic) table of the specification. -/
noncomputable def spec_regime_B (h k s n1 n2 : ℝ) (row term : ℤ) : ℝ :=
  if row = 1 then
    if term = 10 then Real.cosh (k * s)
    else if term = 1 then -Real.sinh (k * s) / k
    else if term = 20 then
      h * (4 * (3 * n1 + n2 - 3) * Real.cosh (k * s) -
        3 * (4 * n1 + n2 - 6) * (2 * Real.cosh (2 * k * s) - 1) -
        (6 + n2) * Real.cosh (4 * k * s)) / (6 * (n1 - 3))
    else if term = 11 then
      (4 * (3 * n1 + n2 - 3) * Real.sinh (k * s) - (6 + n2) * Real.sinh (4 * k * s)) /
        (6 * (n1 - 3) ^ (1.5 : ℝ))
    else if term = 2 then
      -(4 * (9 * n1 + 2 * n2 - 15) * Real.cosh (k * s) -
        3 * (4 * n1 + n2 - 6) * (2 * Real.cosh (2 * k * s) + 1) +
        (6 + n2) * Real.cosh (4 * k * s)) / (6 * h * (n1 - 3) ^ 2)
    else 0
  else if row = 2 then
    if term = 10 then k * Real.sinh (k * s)
    else if term = 1 then Real.cosh (k * s)
    else if term = 20 then
      2 * h ^ 3 * (3 * n1 + n2 - 3) * (Real.sinh (k * s) + Real.sinh (2 * k * s)) / (3 * k)
    else if term = 11 then
      2 * h * (3 * n1 + n2 - 3) * (Real.cosh (2 * k * s) - Real.cosh (k * s)) /
        (3 * (n1 - 3))
    else if term = 2 then
      2 * (15 - 9 * n1 - 2 * n2 + 2 * (3 * n1 + n2 - 3) * Real.cosh (k * s)) *
        Real.sinh (k * s) / (3 * (n1 - 3) ^ (1.5 : ℝ))
    else 0
  else 0

/-- Regime C (polynomial) table of the specification. -/
noncomputable def spec_regime_C (h s n2 : ℝ) (row term : ℤ) : ℝ :=
  if row = 1 then
    if term = 10 then 1
    else if term = 1 then s
    else if term = 20 then h ^ 3 * (6 + n2) * s ^ 2
    else if term = 11 then 2 * h * s + h ^ 3 * (6 + n2) * s ^ 3 / 3
    else if term = 2 then h * s ^ 2 * (6 + h ^ 2 * (6 + n2) * s ^ 2) / 6
    else 0
  else if row = 2 then
    if term = 10 then 0
    else if term = 1 then 1
    else if term = 20 then 2 * h ^ 3 * (6 + n2) * s
    else if term = 11 then h ^ 3 * (6 + n2) * s ^ 2
    else if term = 2 then 2 * h * s * (h ^ 2 * (6 + n2) * s ^ 2 - 3) / 3
    else 0
  else 0

/-! ## The evaluator with its partial operations made explicit

The same function once more, where every division by a non-constant divisor,
every `sqrt` and every `pow (·) 1.5` is an operation that is only defined when
the divisor is non-zero, respectively when the argument is positive.  Divisions
by the literals 2, 3, 6 and 180 are left as they are. -/

/-- Division, defined only for a non-zero divisor. -/
noncomputable def div_checked (a b : ℝ) : Option ℝ :=
  if b = 0 then none else some (a / b)

/-- Square root, defined only for a positive argument. -/
noncomputable def sqrt_checked (x : ℝ) : Option ℝ :=
  if 0 < x then some (Real.sqrt x) else none

/-- The power `pow x 1.5`, defined only for a positive base. -/
noncomputable def pow15_checked (x : ℝ) : Option ℝ :=
  if 0 < x then some (pow x 1.5) else none

/-- Embedding of `calculate_aberration` over the checked operations: the result
is `none` as soon as one operation on the path taken is undefined. -/
noncomputable def calculate_aberration_checked (radius ang n1 n2 : ℝ)
    (index1 index2 : ℤ) : Option ℝ := do
  let s := radius * (Real.pi / 180) * ang
  let h ← div_checked 1 radius
  if n1 < 3 then
    let root ← sqrt_checked (3 - n1)
    let s3n1 := h * root
    if index1 = 1 then
      if index2 = 10 then
        pure (Real.cos (s3n1 * s))
      else if index2 = 1 then
        div_checked (Real.sin (s3n1 * s)) s3n1
      else if index2 = 20 then
        div_checked
          (-4 * h * (9 * n1 + 2 * n2 - 15 + (6 * n1 + n2 - 12) * Real.cos (s3n1 * s)) *
            pow (Real.sin (s3n1 * s / 2)) 2) (3 * (n1 - 3))
      else if index2 = 11 then do
        let p ← pow15_checked (h * h * (3 - n1))
        div_checked
          (-2 * pow h 3 * (3 - 3 * n1 - n2 + (6 * n1 + n2 - 12) * Real.cos (s3n1 * s)) *
            Real.sin (s3n1 * s)) (3 * p)
      else if index2 = 2 then
        div_checked
          (-4 * (3 - 3 * n1 - n2 + (6 * n1 + n2 - 12) * Real.cos (s3n1 * s)) *
            pow (Real.sin (s3n1 * s / 2)) 2) (3 * h * pow (n1 - 3) 2)
      else pure 0
    else if index1 = 2 then
      if index2 = 10 then
        pure (-s3n1 * Real.sin (s3n1 * s))
      else if index2 = 1 then
        pure (Real.cos (s3n1 * s))
      else if index2 = 20 then
        div_checked
          (2 * pow h 3 * (3 * n1 + n2 - 3) *
            (Real.sin (s3n1 * s) + Real.sin (2 * s3n1 * s))) (3 * s3n1)
      else if index2 = 11 then
        div_checked
          (-4 * h * (3 * n1 + n2 - 3) * (1 + 2 * Real.cos (s3n1 * s)) *
            pow (Real.sin (s3n1 * s / 2)) 2) (3 * (n1 - 3))
      else if index2 = 2 then do
        let p ← pow15_checked (h * h * (3 - n1))
        div_checked
          (-2 * pow h 3 *
            (15 - 9 * n1 - 2 * n2 + 2 * (3 * n1 + n2 - 3) * Real.cos (s3n1 * s)) *
            Real.sin (s3n1 * s)) (3 * p)
      else pure 0
    else pure 0
  else if n1 > 3 then
    let root ← sqrt_checked (n1 - 3)
    let s3n1 := h * root
    if index1 = 1 then
      if index2 = 10 then
        pure (Real.cosh (s3n1 * s))
      else if index2 = 1 then
        div_checked (-Real.sinh (s3n1 * s)) s3n1
      else if index2 = 20 then
        div_checked
          (h * (4 * (3 * n1 + n2 - 3) * Real.cosh (s3n1 * s) -
              3 * (4 * n1 + n2 - 6) * (2 * Real.cosh (2 * s3n1 * s) - 1) -
              (6 + n2) * Real.cosh (4 * s3n1 * s))) (6 * (n1 - 3))
      else if index2 = 11 then do
        let p ← pow15_checked (n1 - 3)
        div_checked
          (4 * (3 * n1 + n2 - 3) * Real.sinh (s3n1 * s) -
            (6 + n2) * Real.sinh (4 * s3n1 * s)) (6 * p)
      else if index2 = 2 then
        div_checked
          (-(4 * (9 * n1 + 2 * n2 - 15) * Real.cosh (s3n1 * s) -
            3 * (4 * n1 + n2 - 6) * (2 * Real.cosh (2 * s3n1 * s) + 1) +
            (6 + n2) * Real.cosh (4 * s3n1 * s))) (6 * h * pow (n1 - 3) 2)
      else pure 0
    else if index1 = 2 then
      if index2 = 10 then
        pure (s3n1 * Real.sinh (s3n1 * s))
      else if index2 = 1 then
        pure (Real.cosh (s3n1 * s))
      else if index2 = 20 then
        div_checked
          (2 * h * h * h * (3 * n1 + n2 - 3) *
            (Real.sinh (s3n1 * s) + Real.sinh (2 * s3n1 * s))) (3 * s3n1)
      else if index2 = 11 then
        div_checked
          (2 * h * (3 * n1 + n2 - 3) *
            (Real.cosh (2 * s3n1 * s) - Real.cosh (s3n1 * s))) (3 * (n1 - 3))
      else if index2 = 2 then do
        let p ← pow15_checked (n1 - 3)
        div_checked
          (2 * (15 - 9 * n1 - 2 * n2 + 2 * (3 * n1 + n2 - 3) * Real.cosh (s3n1 * s)) *
            Real.sinh (s3n1 * s)) (3 * p)
      else pure 0
    else pure 0
  else
    if index1 = 1 then
      if index2 = 10 then pure 1
      else if index2 = 1 then pure s
      else if index2 = 20 then pure (h * h * h * (6 + n2) * s * s)
      else if index2 = 11 then pure (2 * h * s + h * h * h * (6 + n2) * s * s * s / 3)
      else if index2 = 2 then pure (h * s * s * (6 + h * h * (6 + n2) * s * s) / 6)
      else pure 0
    else if index1 = 2 then
      if index2 = 10 then pure 0
      else if index2 = 1 then pure 1
      else if index2 = 20 then pure (2 * h * h * h * (6 + n2) * s)
      else if index2 = 11 then pure (h * h * h * (6 + n2) * s * s)
      else if index2 = 2 then pure (2 * h * s * (h * h * (6 + n2) * s * s - 3) / 3)
      else pure 0
    else pure 0

/-! ## The enumerator and reporter

`print_aberrations` writes lines of text and calls `calculate_aberration`.  The
embedding keeps the lines written and the calls made, in order, in the state.
The body of the function does not depend on the evaluator's formulas, so it is
stated over an arbitrary coefficient type and evaluator `eval`, and the number
of variables and the order bound (the locals `number_of_variables` and
`max_order`, both 2 in the source) are parameters; `print_aberrations` below
instantiates them as the source does.  The `while` loop takes a bound `fuel` on
the number of executions of its body and yields `none` when the bound is hit.
Array reads and writes use `List.getD` and `List.set`; the indices stay within
the `number_of_variables + 1` cells of `index_array`. -/

/-- One line of the text written by `print_aberrations`. -/
inductive Line (α : Type) where
  /-- The line `     I  COEFFICIENT           ORDER EXPONENTS`. -/
  | header : Line α
  /-- A data line `     counter aberration   order   index_string`; the text in
  `index_string` is kept as the list of the integers it holds. -/
  | row (counter : ℤ) (aberration : α) (order : ℤ) (index_string : List ℤ) : Line α
  /-- The line `     ALL COMPONENTS ZERO`. -/
  | all_zero : Line α
  /-- The line `     --------------------------------------`. -/
  | separator : Line α
  deriving DecidableEq

/-- The variables of `print_aberrations` that change while it runs, with the
text written so far and the calls of the evaluator made so far. -/
structure State (α : Type) where
  /-- The array `index_array` of the current order. -/
  index_array : List ℤ
  /-- The variable `first_non_zero` (declared outside the loops). -/
  first_non_zero : ℕ
  /-- The variable `counter`. -/
  counter : ℤ
  /-- The lines written so far. -/
  output : List (Line α)
  /-- The arguments `(index1, index2)` of the calls of the evaluator so far. -/
  calls : List (ℤ × ℤ)
  deriving DecidableEq

/-- The packed selector: `index2 = index2 * 10 + index_array[j]` for
`j = 0 .. number_of_variables - 1`, starting from 0 (lines 186-188). -/
def pack_index2 (number_of_variables : ℕ) (index_array : List ℤ) : ℤ :=
  (List.range number_of_variables).foldl
    (fun index2 j => index2 * 10 + index_array.getD j 0) 0

/-- The call `snprintf(index_string, sizeof index_string, "%s %i", index_string, x)`
of lines 194-195.  Its destination is also its `%s` argument, which ISO C
leaves undefined.  The embedding follows the GNU C library, which empties the
destination before it formats: `%s` then reads the empty string and the call
leaves a blank followed by `x`, so the integers that `index_string` held before
the call are lost.  (A blank and one `int` fit into the 20 bytes of the
buffer.) -/
def snprintf_onto_itself (_index_string : List ℤ) (x : ℤ) : List ℤ := [x]

/-- The integers held by `index_string` after lines 191-196:
`sprintf(index_string, "%i", index_array[0])`, then, for
`j = 1 .. number_of_variables - 1`, the call of `snprintf` whose destination is
its own `%s` argument. -/
def make_index_string (number_of_variables : ℕ) (index_array : List ℤ) : List ℤ :=
  (List.range' 1 (number_of_variables - 1)).foldl
    (fun index_string j => snprintf_onto_itself index_string (index_array.getD j 0))
    [index_array.getD 0 0]

/-- The search loop of lines 204-209: the first `j < number_of_variables` with
`index_array[j] != 0`, or the old value of `first_non_zero` if there is none. -/
def find_first_non_zero (number_of_variables : ℕ) (index_array : List ℤ)
    (first_non_zero : ℕ) : ℕ :=
  match (List.range number_of_variables).find? (fun j => index_array.getD j 0 ≠ 0) with
  | some j => j
  | none => first_non_zero

/-- The odometer step of lines 210-216. -/
def odometer_step (order : ℤ) (index_array : List ℤ) (first_non_zero : ℕ) : List ℤ :=
  if index_array.getD first_non_zero 0 = order then
    (index_array.set 0 (order - 1)).set (first_non_zero + 1) 1
  else
    let decremented :=
      index_array.set first_non_zero (index_array.getD first_non_zero 0 - 1)
    decremented.set (first_non_zero + 1) (decremented.getD (first_non_zero + 1) 0 + 1)

/-- One execution of the body of the `while` loop (lines 186-216). -/
def loop_body {α : Type} [Zero α] [DecidableEq α] (eval : ℤ → ℤ → α) (index1 : ℤ)
    (number_of_variables : ℕ) (order : ℤ) (st : State α) : State α :=
  let index2 := pack_index2 number_of_variables st.index_array
  let aberration := eval index1 index2
  let index_string := make_index_string number_of_variables st.index_array
  let written : List (Line α) :=
    if aberration ≠ 0 then
      (if st.counter = 1 then [Line.header] else []) ++
        [Line.row st.counter aberration order index_string]
    else []
  let counter := if aberration ≠ 0 then st.counter + 1 else st.counter
  let first_non_zero :=
    find_first_non_zero number_of_variables st.index_array st.first_non_zero
  { index_array := odometer_step order st.index_array first_non_zero
    first_non_zero := first_non_zero
    counter := counter
    output := st.output ++ written
    calls := st.calls ++ [(index1, index2)] }

/-- The loop `while (index_array[number_of_variables] == 0)` of lines 185-217,
with at most `fuel` executions of its body. -/
def while_loop {α : Type} [Zero α] [DecidableEq α] (eval : ℤ → ℤ → α) (index1 : ℤ)
    (number_of_variables : ℕ) (order : ℤ) : ℕ → State α → Option (State α)
  | 0, st => if st.index_array.getD number_of_variables 0 = 0 then none else some st
  | fuel + 1, st =>
    if st.index_array.getD number_of_variables 0 = 0 then
      while_loop eval index1 number_of_variables order fuel
        (loop_body eval index1 number_of_variables order st)
    else some st

/-- One round of the `for` loop over `order` (lines 181-217): a fresh
`index_array` of `number_of_variables + 1` zeros with `index_array[0] = order`,
then the `while` loop. -/
def order_round {α : Type} [Zero α] [DecidableEq α] (eval : ℤ → ℤ → α) (index1 : ℤ)
    (number_of_variables fuel : ℕ) (st : State α) (order : ℕ) : Option (State α) :=
  while_loop eval index1 number_of_variables order fuel
    { st with index_array := (List.replicate (number_of_variables + 1) 0).set 0 (order : ℤ) }

/-- The body of `print_aberrations` (lines 174-221) over an arbitrary evaluator,
with the locals `number_of_variables` and `max_order` as parameters: the rounds
for `order = 1 .. max_order`, then the marker line if `counter == 1`, then the
separator line. -/
def print_aberrations_with {α : Type} [Zero α] [DecidableEq α] (eval : ℤ → ℤ → α)
    (index1 : ℤ) (number_of_variables max_order fuel : ℕ) : Option (State α) := do
  let st ← (List.range' 1 max_order).foldlM
    (order_round eval index1 number_of_variables fuel)
    { index_array := [], first_non_zero := 0, counter := 1, output := [], calls := [] }
  let marker : List (Line α) := if st.counter = 1 then [Line.all_zero] else []
  pure { st with output := st.output ++ marker ++ [Line.separator] }

/-- Embedding of `print_aberrations` (src/edabrt.c, lines 172-222): two
variables, orders up to 2, and `calculate_aberration` as the evaluator. -/
noncomputable def print_aberrations (fuel : ℕ) (radius ang n1 n2 : ℝ) (index1 : ℤ) :
    Option (State ℝ) :=
  print_aberrations_with (calculate_aberration radius ang n1 n2) index1 2 2 fuel

/-! ## The report described by the specification

The descriptions below follow the text of the specification (section 4.2), not
the code. -/

/-- The monomials `(e0, e1)` of total order 1, then 2, in the canonical order of
the specification. -/
def enumerated_monomials : List (ℤ × ℤ) := [(1, 0), (0, 1), (2, 0), (1, 1), (0, 2)]

/-- The report rows of the specification: the enumerated monomials with a
non-zero coefficient, numbered from 1, each with its coefficient, its order
`e0 + e1` and its exponents. -/
def expected_rows {α : Type} [Zero α] [DecidableEq α] (eval : ℤ → ℤ → α) (index1 : ℤ) :
    List (Line α) :=
  ((enumerated_monomials.filter (fun m => eval index1 (10 * m.1 + m.2) ≠ 0)).enumFrom 1).map
    (fun km => Line.row (km.1 : ℤ) (eval index1 (10 * km.2.1 + km.2.2)) (km.2.1 + km.2.2)
      [km.2.1, km.2.2])

/-- Whether a line is a data row. -/
def Line.is_row {α : Type} : Line α → Bool
  | Line.row _ _ _ _ => true
  | _ => false

/-! ## The report written by the code -/

/-- The data rows that `print_aberrations` writes for two variables and orders
up to 2: the enumerated monomials with a non-zero coefficient, numbered from 1,
each with its coefficient and its order `e0 + e1`; the index string holds the
last exponent `e1` only (see `snprintf_onto_itself`). -/
def written_rows {α : Type} [Zero α] [DecidableEq α] (eval : ℤ → ℤ → α) (index1 : ℤ) :
    List (Line α) :=
  ((enumerated_monomials.filter (fun m => eval index1 (10 * m.1 + m.2) ≠ 0)).enumFrom 1).map
    (fun km => Line.row (km.1 : ℤ) (eval index1 (10 * km.2.1 + km.2.2)) (km.2.1 + km.2.2)
      [km.2.2])

/-! ## An auxiliary function for the limits at n1 = 3 -/

/-- The function `sin x / x`, with the value 1 at 0 (used in proofs only). -/
noncomputable def sinc (x : ℝ) : ℝ := dslope Real.sin 0 x

/-! ## Basic facts about `pow` -/

lemma pow_two_eq (x : ℝ) : pow x 2 = x ^ 2 := by
  unfold pow
  exact Real.rpow_two x

lemma pow_three_eq (x : ℝ) : pow x 3 = x ^ 3 := by
  unfold pow
  exact_mod_cast Real.rpow_natCast x 3

lemma pow_15_eq (x : ℝ) : pow x 1.5 = x ^ (1.5 : ℝ) := rfl

/-! ## The run of the enumerator for two variables and orders up to 2 -/

/-- Once `index_array[number_of_variables]` is non-zero the loop stops, whatever
the fuel. -/
lemma while_loop_exit {α : Type} [Zero α] [DecidableEq α] (eval : ℤ → ℤ → α) (index1 : ℤ)
    (number_of_variables : ℕ) (order : ℤ) (fuel : ℕ) (st : State α)
    (h : st.index_array.getD number_of_variables 0 ≠ 0) :
    while_loop eval index1 number_of_variables order fuel st = some st := by
  cases fuel <;> simp only [while_loop, if_neg h]

/-- The complete final state of the enumerator for two variables and orders up
to 2, for any evaluator and any fuel of at least 3. -/
lemma print_aberrations_with_two_two {α : Type} [Zero α] [DecidableEq α]
    (eval : ℤ → ℤ → α) (index1 : ℤ) (fuel : ℕ) (hfuel : 3 ≤ fuel) :
    print_aberrations_with eval index1 2 2 fuel = some
      { index_array := [1, 2, 1]
        first_non_zero := 1
        counter := 1 + ((written_rows eval index1).length : ℤ)
        output := (if written_rows eval index1 = [] then [Line.all_zero]
          else Line.header :: written_rows eval index1) ++ [Line.separator]
        calls := [(index1, 10), (index1, 1), (index1, 20), (index1, 11), (index1, 2)] } := by
  obtain ⟨k, rfl⟩ : ∃ k, fuel = k + 3 := ⟨fuel - 3, by omega⟩
  by_cases h10 : eval index1 10 = 0 <;> by_cases h1 : eval index1 1 = 0 <;>
    by_cases h20 : eval index1 20 = 0 <;> by_cases h11 : eval index1 11 = 0 <;>
    by_cases h2 : eval index1 2 = 0 <;>
    simp [print_aberrations_with, order_round, while_loop, while_loop_exit, loop_body,
      odometer_step, find_first_non_zero, pack_index2, make_index_string,
      snprintf_onto_itself, written_rows, enumerated_monomials, List.range_succ, List.range',
      List.find?, List.filter, List.enumFrom, h10, h1, h20, h11, h2]

/-- A run of the enumerator on an integer-valued evaluator that returns the
selector itself, except 0 for the selector 11: four rows, numbered 1 to 4. -/
lemma print_aberrations_with_sample_run :
    (print_aberrations_with (fun _ i => if i = 11 then (0 : ℤ) else i) 1 2 2 3).map
        (fun st => (st.output, st.calls)) =
      some ([Line.header, Line.row 1 10 1 [0], Line.row 2 1 1 [1],
          Line.row 3 20 2 [0], Line.row 4 2 2 [2], Line.separator],
        [(1, 10), (1, 1), (1, 20), (1, 11), (1, 2)]) := by
  decide

/-- With fuel for fewer than 3 iterations the loop for order 2 is cut off. -/
lemma print_aberrations_with_fuel_two :
    print_aberrations_with (fun _ i => (i : ℤ)) 1 2 2 2 = none := by
  decide

/-- Every written row is a data row. -/
lemma is_row_of_mem_written_rows {α : Type} [Zero α] [DecidableEq α] (eval : ℤ → ℤ → α)
    (index1 : ℤ) (l : Line α) (hl : l ∈ written_rows eval index1) : l.is_row = true := by
  unfold written_rows at hl
  obtain ⟨km, -, rfl⟩ := List.mem_map.mp hl
  rfl

/-- There is no written row exactly when all five coefficients are zero. -/
lemma written_rows_eq_nil_iff {α : Type} [Zero α] [DecidableEq α] (eval : ℤ → ℤ → α)
    (index1 : ℤ) :
    written_rows eval index1 = [] ↔
      ∀ m ∈ enumerated_monomials, eval index1 (10 * m.1 + m.2) = 0 := by
  unfold written_rows
  rw [List.map_eq_nil_iff, List.enumFrom_eq_nil, List.filter_eq_nil_iff]
  constructor
  · intro h m hm
    simpa using h m hm
  · intro h m hm
    simpa using h m hm

/-- The data rows of the output are the written rows: for every evaluator and
row selector, with fuel for at least 3 loop iterations per order. -/
lemma data_rows_eq_written_rows {α : Type} [Zero α] [DecidableEq α] (eval : ℤ → ℤ → α)
    (index1 : ℤ) (fuel : ℕ) (hfuel : 3 ≤ fuel) :
    ∃ st, print_aberrations_with eval index1 2 2 fuel = some st ∧
      st.output.filter Line.is_row = written_rows eval index1 := by
  refine ⟨_, print_aberrations_with_two_two eval index1 fuel hfuel, ?_⟩
  have hrows : (written_rows eval index1).filter Line.is_row = written_rows eval index1 :=
    List.filter_eq_self.mpr (is_row_of_mem_written_rows eval index1)
  by_cases hnil : written_rows eval index1 = []
  · simp [hnil, Line.is_row]
  · simp [hnil, Line.is_row, hrows]

/-! ## Limits at n1 = 3 -/

lemma mul_sinc (x : ℝ) : x * sinc x = Real.sin x := by
  have h := sub_smul_dslope Real.sin 0 x
  simpa [sinc] using h

lemma sin_eq_mul_sinc (x : ℝ) : Real.sin x = x * sinc x := (mul_sinc x).symm

lemma sinc_zero : sinc 0 = 1 := by
  simp [sinc, dslope_same]

@[fun_prop]
lemma continuous_sinc : Continuous sinc := by
  rw [continuous_iff_continuousAt]
  intro x
  by_cases hx : x = 0
  · subst hx
    exact continuousAt_dslope_same.mpr Real.differentiableAt_sin
  · exact (continuousAt_dslope_of_ne hx).mpr Real.continuous_sin.continuousAt

lemma cos_eq_sinc (x : ℝ) : Real.cos x = 1 - x ^ 2 * sinc (x / 2) ^ 2 / 2 := by
  have h1 : Real.cos x = Real.cos (2 * (x / 2)) := by ring_nf
  have h2 := Real.sin_sq_add_cos_sq (x / 2)
  rw [← mul_sinc (x / 2)] at h2
  rw [h1, Real.cos_two_mul]
  linear_combination 2 * h2

/-- The 1.5-power of a square of a non-negative number is its cube. -/
lemma pow15_sq (y : ℝ) (hy : 0 ≤ y) : pow (y ^ 2) 1.5 = y ^ 3 := by
  unfold pow
  rw [← Real.rpow_natCast y 2, ← Real.rpow_mul hy, ← Real.rpow_natCast y 3]
  norm_num

/-- A function that agrees for n1 < 3 with a continuous function of sqrt(3 - n1)
tends, as n1 tends to 3 from below, to the value of that function at 0. -/
lemma tendsto_below_of_eq (f G : ℝ → ℝ) (hG : Continuous G)
    (hf : ∀ t : ℝ, 0 < t → f (3 - t ^ 2) = G t) :
    Tendsto f (𝓝[<] 3) (𝓝 (G 0)) := by
  have hc : Continuous (fun n1 : ℝ => G (Real.sqrt (3 - n1))) :=
    hG.comp (Real.continuous_sqrt.comp (continuous_const.sub continuous_id))
  have h3 : Tendsto (fun n1 : ℝ => G (Real.sqrt (3 - n1))) (𝓝[<] 3) (𝓝 (G 0)) := by
    have h := (hc.tendsto 3).mono_left (nhdsWithin_le_nhds (s := Set.Iio 3))
    simpa using h
  refine h3.congr' ?_
  filter_upwards [self_mem_nhdsWithin] with n1 hn1
  have hpos : 0 < 3 - n1 := sub_pos.mpr hn1
  have h := hf _ (Real.sqrt_pos.mpr hpos)
  rw [Real.sq_sqrt hpos.le, sub_sub_cancel] at h
  exact h.symm

/-- Row 1, term 10: the Regime A value tends to the Regime C value as n1 tends
to 3 from below. -/
lemma tendsto_below_1_10 (radius ang n2 : ℝ) (_hr : 0 < radius) :
    Tendsto (fun n1 => calculate_aberration radius ang n1 n2 1 10) (𝓝[<] 3)
      (𝓝 (calculate_aberration radius ang 3 n2 1 10)) := by
  have key := tendsto_below_of_eq (fun n1 => calculate_aberration radius ang n1 n2 1 10)
    (fun t =>
      Real.cos (1 / radius * t * (radius * (Real.pi / 180) * ang)))
    (by fun_prop) ?_
  · convert key using 2
    simp only [calculate_aberration, lt_self_iff_false, gt_iff_lt, ↓reduceIte, Int.reduceEq,
      mul_zero, zero_mul, zero_div, neg_zero, sinc_zero, Real.cos_zero, Real.sin_zero]
  · intro t ht
    have hlt : 3 - t ^ 2 < 3 := by nlinarith
    simp only [calculate_aberration, hlt, ↓reduceIte, Int.reduceEq, sub_sub_cancel,
      Real.sqrt_sq ht.le]

/-- Row 1, term 1: the Regime A value tends to the Regime C value as n1 tends
to 3 from below. -/
lemma tendsto_below_1_1 (radius ang n2 : ℝ) (hr : 0 < radius) :
    Tendsto (fun n1 => calculate_aberration radius ang n1 n2 1 1) (𝓝[<] 3)
      (𝓝 (calculate_aberration radius ang 3 n2 1 1)) := by
  have hr0 : radius ≠ 0 := hr.ne'
  have key := tendsto_below_of_eq (fun n1 => calculate_aberration radius ang n1 n2 1 1)
    (fun t =>
      (radius * (Real.pi / 180) * ang) * sinc (1 / radius * t * (radius * (Real.pi / 180) *
        ang)))
    (by fun_prop) ?_
  · convert key using 2
    simp only [calculate_aberration, lt_self_iff_false, gt_iff_lt, ↓reduceIte, Int.reduceEq,
      mul_zero, zero_mul, zero_div, neg_zero, sinc_zero, Real.cos_zero, Real.sin_zero]
    ring
  · intro t ht
    have hlt : 3 - t ^ 2 < 3 := by nlinarith
    have hbase : 1 / radius * (1 / radius) * t ^ 2 = (1 / radius * t) ^ 2 := by ring
    have hnn : 0 ≤ 1 / radius * t := by positivity
    simp only [calculate_aberration, hlt, ↓reduceIte, Int.reduceEq, sub_sub_cancel,
      Real.sqrt_sq ht.le, hbase, pow15_sq _ hnn, pow_three_eq, pow_two_eq]
    simp only [cos_eq_sinc, sin_eq_mul_sinc]
    field_simp
    ring

/-- Row 1, term 20: the Regime A value tends to the Regime C value as n1 tends
to 3 from below. -/
lemma tendsto_below_1_20 (radius ang n2 : ℝ) (hr : 0 < radius) :
    Tendsto (fun n1 => calculate_aberration radius ang n1 n2 1 20) (𝓝[<] 3)
      (𝓝 (calculate_aberration radius ang 3 n2 1 20)) := by
  have hr0 : radius ≠ 0 := hr.ne'
  have key := tendsto_below_of_eq (fun n1 => calculate_aberration radius ang n1 n2 1 20)
    (fun t =>
      (1 / radius) ^ 3 * (radius * (Real.pi / 180) * ang) ^ 2 * sinc ((1 / radius * t * (radius
        * (Real.pi / 180) * ang)) / 2) ^ 2 * (12 - 9 * t ^ 2 + 2 * n2 + (6 - 6 * t ^ 2 + n2) *
        (1 - (1 / radius * t * (radius * (Real.pi / 180) * ang)) ^ 2 * sinc ((1 / radius * t *
        (radius * (Real.pi / 180) * ang)) / 2) ^ 2 / 2)) / 3)
    (by fun_prop) ?_
  · convert key using 2
    simp only [calculate_aberration, lt_self_iff_false, gt_iff_lt, ↓reduceIte, Int.reduceEq,
      mul_zero, zero_mul, zero_div, neg_zero, sinc_zero, Real.cos_zero, Real.sin_zero]
    ring
  · intro t ht
    have hlt : 3 - t ^ 2 < 3 := by nlinarith
    have hbase : 1 / radius * (1 / radius) * t ^ 2 = (1 / radius * t) ^ 2 := by ring
    have hnn : 0 ≤ 1 / radius * t := by positivity
    simp only [calculate_aberration, hlt, ↓reduceIte, Int.reduceEq, sub_sub_cancel,
      Real.sqrt_sq ht.le, hbase, pow15_sq _ hnn, pow_three_eq, pow_two_eq]
    simp only [cos_eq_sinc, sin_eq_mul_sinc]
    field_simp
    ring

/-- Row 1, term 11: the Regime A value tends to the Regime C value as n1 tends
to 3 from below. -/
lemma tendsto_below_1_11 (radius ang n2 : ℝ) (hr : 0 < radius) :
    Tendsto (fun n1 => calculate_aberration radius ang n1 n2 1 11) (𝓝[<] 3)
      (𝓝 (calculate_aberration radius ang 3 n2 1 11)) := by
  have hr0 : radius ≠ 0 := hr.ne'
  have key := tendsto_below_of_eq (fun n1 => calculate_aberration radius ang n1 n2 1 11)
    (fun t =>
      -2 * (1 / radius) * (radius * (Real.pi / 180) * ang) * sinc (1 / radius * t * (radius *
        (Real.pi / 180) * ang)) * (3 - 6 * (1 - (1 / radius * t * (radius * (Real.pi / 180) *
        ang)) ^ 2 * sinc ((1 / radius * t * (radius * (Real.pi / 180) * ang)) / 2) ^ 2 / 2) -
        (6 + n2) * (1 / radius) ^ 2 * (radius * (Real.pi / 180) * ang) ^ 2 * sinc ((1 / radius
        * t * (radius * (Real.pi / 180) * ang)) / 2) ^ 2 / 2) / 3)
    (by fun_prop) ?_
  · convert key using 2
    simp only [calculate_aberration, lt_self_iff_false, gt_iff_lt, ↓reduceIte, Int.reduceEq,
      mul_zero, zero_mul, zero_div, neg_zero, sinc_zero, Real.cos_zero, Real.sin_zero]
    ring
  · intro t ht
    have hlt : 3 - t ^ 2 < 3 := by nlinarith
    have hbase : 1 / radius * (1 / radius) * t ^ 2 = (1 / radius * t) ^ 2 := by ring
    have hnn : 0 ≤ 1 / radius * t := by positivity
    simp only [calculate_aberration, hlt, ↓reduceIte, Int.reduceEq, sub_sub_cancel,
      Real.sqrt_sq ht.le, hbase, pow15_sq _ hnn, pow_three_eq, pow_two_eq]
    simp only [cos_eq_sinc, sin_eq_mul_sinc]
    field_simp
    ring

/-- Row 1, term 2: the Regime A value tends to the Regime C value as n1 tends
to 3 from below. -/
lemma tendsto_below_1_2 (radius ang n2 : ℝ) (hr : 0 < radius) :
    Tendsto (fun n1 => calculate_aberration radius ang n1 n2 1 2) (𝓝[<] 3)
      (𝓝 (calculate_aberration radius ang 3 n2 1 2)) := by
  have hr0 : radius ≠ 0 := hr.ne'
  have key := tendsto_below_of_eq (fun n1 => calculate_aberration radius ang n1 n2 1 2)
    (fun t =>
      -(1 / radius) * (radius * (Real.pi / 180) * ang) ^ 2 * sinc ((1 / radius * t * (radius *
        (Real.pi / 180) * ang)) / 2) ^ 2 * (3 - 6 * (1 - (1 / radius * t * (radius * (Real.pi /
        180) * ang)) ^ 2 * sinc ((1 / radius * t * (radius * (Real.pi / 180) * ang)) / 2) ^ 2 /
        2) - (6 + n2) * (1 / radius) ^ 2 * (radius * (Real.pi / 180) * ang) ^ 2 * sinc ((1 /
        radius * t * (radius * (Real.pi / 180) * ang)) / 2) ^ 2 / 2) / 3)
    (by fun_prop) ?_
  · convert key using 2
    simp only [calculate_aberration, lt_self_iff_false, gt_iff_lt, ↓reduceIte, Int.reduceEq,
      mul_zero, zero_mul, zero_div, neg_zero, sinc_zero, Real.cos_zero, Real.sin_zero]
    ring
  · intro t ht
    have hlt : 3 - t ^ 2 < 3 := by nlinarith
    have hbase : 1 / radius * (1 / radius) * t ^ 2 = (1 / radius * t) ^ 2 := by ring
    have hnn : 0 ≤ 1 / radius * t := by positivity
    simp only [calculate_aberration, hlt, ↓reduceIte, Int.reduceEq, sub_sub_cancel,
      Real.sqrt_sq ht.le, hbase, pow15_sq _ hnn, pow_three_eq, pow_two_eq]
    simp only [cos_eq_sinc, sin_eq_mul_sinc]
    field_simp
    ring

/-- Row 2, term 10: the Regime A value tends to the Regime C value as n1 tends
to 3 from below. -/
lemma tendsto_below_2_10 (radius ang n2 : ℝ) (_hr : 0 < radius) :
    Tendsto (fun n1 => calculate_aberration radius ang n1 n2 2 10) (𝓝[<] 3)
      (𝓝 (calculate_aberration radius ang 3 n2 2 10)) := by
  have key := tendsto_below_of_eq (fun n1 => calculate_aberration radius ang n1 n2 2 10)
    (fun t =>
      -(1 / radius * t) * Real.sin (1 / radius * t * (radius * (Real.pi / 180) * ang)))
    (by fun_prop) ?_
  · convert key using 2
    simp only [calculate_aberration, lt_self_iff_false, gt_iff_lt, ↓reduceIte, Int.reduceEq,
      mul_zero, zero_mul, zero_div, neg_zero, sinc_zero, Real.cos_zero, Real.sin_zero]
  · intro t ht
    have hlt : 3 - t ^ 2 < 3 := by nlinarith
    simp only [calculate_aberration, hlt, ↓reduceIte, Int.reduceEq, sub_sub_cancel,
      Real.sqrt_sq ht.le]

/-- Row 2, term 1: the Regime A value tends to the Regime C value as n1 tends
to 3 from below. -/
lemma tendsto_below_2_1 (radius ang n2 : ℝ) (_hr : 0 < radius) :
    Tendsto (fun n1 => calculate_aberration radius ang n1 n2 2 1) (𝓝[<] 3)
      (𝓝 (calculate_aberration radius ang 3 n2 2 1)) := by
  have key := tendsto_below_of_eq (fun n1 => calculate_aberration radius ang n1 n2 2 1)
    (fun t =>
      Real.cos (1 / radius * t * (radius * (Real.pi / 180) * ang)))
    (by fun_prop) ?_
  · convert key using 2
    simp only [calculate_aberration, lt_self_iff_false, gt_iff_lt, ↓reduceIte, Int.reduceEq,
      mul_zero, zero_mul, zero_div, neg_zero, sinc_zero, Real.cos_zero, Real.sin_zero]
  · intro t ht
    have hlt : 3 - t ^ 2 < 3 := by nlinarith
    simp only [calculate_aberration, hlt, ↓reduceIte, Int.reduceEq, sub_sub_cancel,
      Real.sqrt_sq ht.le]

/-- Row 2, term 20: the Regime A value tends to the Regime C value as n1 tends
to 3 from below. -/
lemma tendsto_below_2_20 (radius ang n2 : ℝ) (hr : 0 < radius) :
    Tendsto (fun n1 => calculate_aberration radius ang n1 n2 2 20) (𝓝[<] 3)
      (𝓝 (calculate_aberration radius ang 3 n2 2 20)) := by
  have hr0 : radius ≠ 0 := hr.ne'
  have key := tendsto_below_of_eq (fun n1 => calculate_aberration radius ang n1 n2 2 20)
    (fun t =>
      2 * (1 / radius) ^ 3 * (6 + n2 - 3 * t ^ 2) * (radius * (Real.pi / 180) * ang) * (sinc (1
        / radius * t * (radius * (Real.pi / 180) * ang)) + 2 * sinc (2 * (1 / radius * t) *
        (radius * (Real.pi / 180) * ang))) / 3)
    (by fun_prop) ?_
  · convert key using 2
    simp only [calculate_aberration, lt_self_iff_false, gt_iff_lt, ↓reduceIte, Int.reduceEq,
      mul_zero, zero_mul, zero_div, neg_zero, sinc_zero, Real.cos_zero, Real.sin_zero]
    ring
  · intro t ht
    have hlt : 3 - t ^ 2 < 3 := by nlinarith
    have hbase : 1 / radius * (1 / radius) * t ^ 2 = (1 / radius * t) ^ 2 := by ring
    have hnn : 0 ≤ 1 / radius * t := by positivity
    simp only [calculate_aberration, hlt, ↓reduceIte, Int.reduceEq, sub_sub_cancel,
      Real.sqrt_sq ht.le, hbase, pow15_sq _ hnn, pow_three_eq, pow_two_eq]
    simp only [cos_eq_sinc, sin_eq_mul_sinc]
    field_simp
    ring

/-- Row 2, term 11: the Regime A value tends to the Regime C value as n1 tends
to 3 from below. -/
lemma tendsto_below_2_11 (radius ang n2 : ℝ) (hr : 0 < radius) :
    Tendsto (fun n1 => calculate_aberration radius ang n1 n2 2 11) (𝓝[<] 3)
      (𝓝 (calculate_aberration radius ang 3 n2 2 11)) := by
  have hr0 : radius ≠ 0 := hr.ne'
  have key := tendsto_below_of_eq (fun n1 => calculate_aberration radius ang n1 n2 2 11)
    (fun t =>
      (1 / radius) ^ 3 * (radius * (Real.pi / 180) * ang) ^ 2 * (6 + n2 - 3 * t ^ 2) * (1 + 2 *
        (1 - (1 / radius * t * (radius * (Real.pi / 180) * ang)) ^ 2 * sinc ((1 / radius * t *
        (radius * (Real.pi / 180) * ang)) / 2) ^ 2 / 2)) * sinc ((1 / radius * t * (radius *
        (Real.pi / 180) * ang)) / 2) ^ 2 / 3)
    (by fun_prop) ?_
  · convert key using 2
    simp only [calculate_aberration, lt_self_iff_false, gt_iff_lt, ↓reduceIte, Int.reduceEq,
      mul_zero, zero_mul, zero_div, neg_zero, sinc_zero, Real.cos_zero, Real.sin_zero]
    ring
  · intro t ht
    have hlt : 3 - t ^ 2 < 3 := by nlinarith
    have hbase : 1 / radius * (1 / radius) * t ^ 2 = (1 / radius * t) ^ 2 := by ring
    have hnn : 0 ≤ 1 / radius * t := by positivity
    simp only [calculate_aberration, hlt, ↓reduceIte, Int.reduceEq, sub_sub_cancel,
      Real.sqrt_sq ht.le, hbase, pow15_sq _ hnn, pow_three_eq, pow_two_eq]
    simp only [cos_eq_sinc, sin_eq_mul_sinc]
    field_simp
    ring

/-- Row 2, term 2: the Regime A value tends to the Regime C value as n1 tends
to 3 from below. -/
lemma tendsto_below_2_2 (radius ang n2 : ℝ) (hr : 0 < radius) :
    Tendsto (fun n1 => calculate_aberration radius ang n1 n2 2 2) (𝓝[<] 3)
      (𝓝 (calculate_aberration radius ang 3 n2 2 2)) := by
  have hr0 : radius ≠ 0 := hr.ne'
  have key := tendsto_below_of_eq (fun n1 => calculate_aberration radius ang n1 n2 2 2)
    (fun t =>
      -2 * (1 / radius) * (radius * (Real.pi / 180) * ang) * sinc (1 / radius * t * (radius *
        (Real.pi / 180) * ang)) * (9 - 6 * (1 - (1 / radius * t * (radius * (Real.pi / 180) *
        ang)) ^ 2 * sinc ((1 / radius * t * (radius * (Real.pi / 180) * ang)) / 2) ^ 2 / 2) -
        (6 + n2) * (1 / radius) ^ 2 * (radius * (Real.pi / 180) * ang) ^ 2 * sinc ((1 / radius
        * t * (radius * (Real.pi / 180) * ang)) / 2) ^ 2) / 3)
    (by fun_prop) ?_
  · convert key using 2
    simp only [calculate_aberration, lt_self_iff_false, gt_iff_lt, ↓reduceIte, Int.reduceEq,
      mul_zero, zero_mul, zero_div, neg_zero, sinc_zero, Real.cos_zero, Real.sin_zero]
    ring
  · intro t ht
    have hlt : 3 - t ^ 2 < 3 := by nlinarith
    have hbase : 1 / radius * (1 / radius) * t ^ 2 = (1 / radius * t) ^ 2 := by ring
    have hnn : 0 ≤ 1 / radius * t := by positivity
    simp only [calculate_aberration, hlt, ↓reduceIte, Int.reduceEq, sub_sub_cancel,
      Real.sqrt_sq ht.le, hbase, pow15_sq _ hnn, pow_three_eq, pow_two_eq]
    simp only [cos_eq_sinc, sin_eq_mul_sinc]
    field_simp
    ring

/-! ## The fixture radius = 1, s = 1 in Regime B -/

/-- The arc length of the fixture radius = 1, angle = 180/pi degrees is 1. -/
lemma fixture_arc_length : Real.pi / 180 * (180 / Real.pi) = 1 := by
  have hpi : Real.pi ≠ 0 := Real.pi_ne_zero
  field_simp

/-- At radius = 1, s = 1, n2 = 0 the Regime B value of row 1, term 20 is never
positive. -/
lemma regime_B_fixture_nonpos (n1 : ℝ) (hgt : n1 > 3) :
    calculate_aberration 1 (180 / Real.pi) n1 0 1 20 ≤ 0 := by
  have hnlt : ¬ n1 < 3 := not_lt.mpr hgt.le
  have hpos : 0 < n1 - 3 := sub_pos.mpr hgt
  simp only [calculate_aberration, hnlt, hgt, gt_iff_lt, ↓reduceIte, Int.reduceEq,
    div_one, one_mul, fixture_arc_length, mul_one, add_zero]
  have hr : 0 ≤ Real.sqrt (n1 - 3) := Real.sqrt_nonneg _
  have h1 : Real.cosh (Real.sqrt (n1 - 3)) ≤ Real.cosh (2 * Real.sqrt (n1 - 3)) := by
    rw [Real.cosh_le_cosh, abs_of_nonneg hr, abs_of_nonneg (by positivity)]
    linarith
  have h2 : 1 ≤ Real.cosh (2 * Real.sqrt (n1 - 3)) := Real.one_le_cosh _
  have h4 : 1 ≤ Real.cosh (4 * Real.sqrt (n1 - 3)) := Real.one_le_cosh _
  have h0 : 1 ≤ Real.cosh (Real.sqrt (n1 - 3)) := Real.one_le_cosh _
  apply div_nonpos_of_nonpos_of_nonneg _ (by positivity)
  nlinarith [mul_nonneg (by linarith : (0 : ℝ) ≤ n1 - 1) (sub_nonneg.mpr h1),
    mul_nonneg (by linarith : (0 : ℝ) ≤ n1 - 2) (sub_nonneg.mpr h2)]

/-- At radius = 1, s = 1 the Regime B value of row 1, term 01 is never positive. -/
lemma regime_B_fixture_term1_nonpos (n1 n2 : ℝ) (hgt : n1 > 3) :
    calculate_aberration 1 (180 / Real.pi) n1 n2 1 1 ≤ 0 := by
  have hnlt : ¬ n1 < 3 := not_lt.mpr hgt.le
  simp only [calculate_aberration, hnlt, hgt, gt_iff_lt, ↓reduceIte, Int.reduceEq,
    div_one, one_mul, fixture_arc_length, mul_one]
  have hr : 0 ≤ Real.sqrt (n1 - 3) := Real.sqrt_nonneg _
  exact div_nonpos_of_nonpos_of_nonneg (neg_nonpos.mpr (Real.sinh_nonneg_iff.mpr hr)) hr

/-! ## The `while` loop as an iteration of its body -/

/-- If the loop condition holds before each of the first `n` executions of the
body and fails after them, the loop with fuel at least `n` returns the state
after exactly `n` executions. -/
lemma while_loop_eq_iterate {α : Type} [Zero α] [DecidableEq α] (eval : ℤ → ℤ → α)
    (index1 : ℤ) (number_of_variables : ℕ) (order : ℤ) (n : ℕ) :
    ∀ (fuel : ℕ) (st : State α),
      (∀ j < n, ((loop_body eval index1 number_of_variables order)^[j] st).index_array.getD
        number_of_variables 0 = 0) →
      ((loop_body eval index1 number_of_variables order)^[n] st).index_array.getD
        number_of_variables 0 ≠ 0 →
      n ≤ fuel →
      while_loop eval index1 number_of_variables order fuel st =
        some ((loop_body eval index1 number_of_variables order)^[n] st) := by
  induction n with
  | zero =>
    intro fuel st _ hexit _
    exact while_loop_exit eval index1 number_of_variables order fuel st hexit
  | succ n ih =>
    intro fuel st hcond hexit hfuel
    obtain ⟨f, rfl⟩ : ∃ f, fuel = f + 1 := ⟨fuel - 1, by omega⟩
    have h0 : st.index_array.getD number_of_variables 0 = 0 := hcond 0 (Nat.succ_pos n)
    rw [while_loop, if_pos h0, Function.iterate_succ_apply]
    refine ih f _ ?_ ?_ (by omega)
    · intro j hj
      rw [← Function.iterate_succ_apply]
      exact hcond (j + 1) (by omega)
    · rw [← Function.iterate_succ_apply]
      exact hexit

/-- If the loop condition holds before each of the first `fuel + 1` executions
of the body, the fuel runs out. -/
lemma while_loop_eq_none {α : Type} [Zero α] [DecidableEq α] (eval : ℤ → ℤ → α)
    (index1 : ℤ) (number_of_variables : ℕ) (order : ℤ) (fuel : ℕ) :
    ∀ st : State α,
      (∀ j ≤ fuel, ((loop_body eval index1 number_of_variables order)^[j] st).index_array.getD
        number_of_variables 0 = 0) →
      while_loop eval index1 number_of_variables order fuel st = none := by
  induction fuel with
  | zero =>
    intro st hcond
    have h0 : st.index_array.getD number_of_variables 0 = 0 := hcond 0 (le_refl 0)
    rw [while_loop, if_pos h0]
  | succ f ih =>
    intro st hcond
    have h0 : st.index_array.getD number_of_variables 0 = 0 := hcond 0 (Nat.zero_le _)
    rw [while_loop, if_pos h0]
    refine ih _ ?_
    intro j hj
    rw [← Function.iterate_succ_apply]
    exact hcond (j + 1) (by omega)

/-! ## The odometer for two variables -/

/-- A step of the body from `(a, b, 0)` with `a ≠ 0`, where `b = 0` in case
`a = order`: the next index array is `(a - 1, b + 1, 0)`. -/
lemma loop_body_two_shift {α : Type} [Zero α] [DecidableEq α] (eval : ℤ → ℤ → α)
    (index1 order a b : ℤ) (st : State α) (hst : st.index_array = [a, b, 0]) (ha : a ≠ 0)
    (hb : a = order → b = 0) :
    (loop_body eval index1 2 order st).index_array = [a - 1, b + 1, 0] := by
  by_cases hao : a = order
  · have hb0 := hb hao
    subst hb0 hao
    simp [loop_body, odometer_step, find_first_non_zero, List.range_succ, List.find?, hst, ha]
  · simp [loop_body, odometer_step, find_first_non_zero, List.range_succ, List.find?, hst, ha,
      hao]

/-- A step of the body from `(0, order, 0)` with `order ≠ 0`: the next index
array is `(order - 1, order, 1)`, which ends the loop. -/
lemma loop_body_two_last {α : Type} [Zero α] [DecidableEq α] (eval : ℤ → ℤ → α)
    (index1 order : ℤ) (st : State α) (hst : st.index_array = [0, order, 0])
    (ho : order ≠ 0) :
    (loop_body eval index1 2 order st).index_array = [order - 1, order, 1] := by
  simp [loop_body, odometer_step, find_first_non_zero, List.range_succ, List.find?, hst, ho]

/-- The index arrays seen by the first `o + 1` executions of the body, for two
variables and order `o ≥ 1`, started at `(o, 0, 0)`. -/
lemma two_variable_run {α : Type} [Zero α] [DecidableEq α] (eval : ℤ → ℤ → α)
    (index1 : ℤ) (o : ℕ) (st : State α) (hst : st.index_array = [(o : ℤ), 0, 0]) :
    ∀ j ≤ o, ((loop_body eval index1 2 (o : ℤ))^[j] st).index_array =
      [(o : ℤ) - j, (j : ℤ), 0] := by
  intro j
  induction j with
  | zero =>
    intro _
    simpa using hst
  | succ j ih =>
    intro hj
    have hprev := ih (by omega)
    rw [Function.iterate_succ_apply']
    have hstep := loop_body_two_shift eval index1 (o : ℤ) ((o : ℤ) - j) (j : ℤ) _ hprev
      (by omega) (by omega)
    rw [hstep]
    push_cast
    simp only [List.cons.injEq, and_true, true_and]
    omega

/-- After `o + 1` executions of the body the index array is `(o - 1, o, 1)`. -/
lemma two_variable_run_end {α : Type} [Zero α] [DecidableEq α] (eval : ℤ → ℤ → α)
    (index1 : ℤ) (o : ℕ) (st : State α) (ho : 1 ≤ o) (hst : st.index_array = [(o : ℤ), 0, 0]) :
    ((loop_body eval index1 2 (o : ℤ))^[o + 1] st).index_array = [(o : ℤ) - 1, (o : ℤ), 1] := by
  have hprev := two_variable_run eval index1 o st hst o (le_refl o)
  rw [sub_self] at hprev
  rw [Function.iterate_succ_apply']
  exact loop_body_two_last eval index1 (o : ℤ) _ hprev (by omega)

/-! ## The odometer for three variables and order 1 -/

/-- For three variables and order 1 the index array goes from `(1,0,0,0)` to
`(0,1,0,0)`, then to `(0,1,1,0)`, and stays there: the cell
`index_array[3]` tested by the loop is never written. -/
lemma three_variable_steps {α : Type} [Zero α] [DecidableEq α] (eval : ℤ → ℤ → α)
    (index1 : ℤ) (st : State α) :
    (st.index_array = [1, 0, 0, 0] →
      (loop_body eval index1 3 1 st).index_array = [0, 1, 0, 0]) ∧
    (st.index_array = [0, 1, 0, 0] →
      (loop_body eval index1 3 1 st).index_array = [0, 1, 1, 0]) ∧
    (st.index_array = [0, 1, 1, 0] →
      (loop_body eval index1 3 1 st).index_array = [0, 1, 1, 0]) := by
  refine ⟨?_, ?_, ?_⟩ <;> intro hst <;>
    simp [loop_body, odometer_step, find_first_non_zero, List.range_succ, List.find?, hst]

/-- The index arrays of the run for three variables and order 1. -/
lemma three_variable_run {α : Type} [Zero α] [DecidableEq α] (eval : ℤ → ℤ → α)
    (index1 : ℤ) (st : State α) (hst : st.index_array = [1, 0, 0, 0]) (j : ℕ) :
    ((loop_body eval index1 3 1)^[j + 2] st).index_array = [0, 1, 1, 0] := by
  induction j with
  | zero =>
    rw [Function.iterate_succ_apply', Function.iterate_succ_apply', Function.iterate_zero_apply]
    exact (three_variable_steps eval index1 _).2.1
      ((three_variable_steps eval index1 st).1 hst)
  | succ j ih =>
    rw [Function.iterate_succ_apply']
    exact (three_variable_steps eval index1 _).2.2 ih

/-- For three variables and order 1 the loop never ends. -/
lemma three_variable_never_exits {α : Type} [Zero α] [DecidableEq α] (eval : ℤ → ℤ → α)
    (index1 : ℤ) (st : State α) (hst : st.index_array = [1, 0, 0, 0]) (fuel : ℕ) :
    while_loop eval index1 3 1 fuel st = none := by
  refine while_loop_eq_none eval index1 3 1 fuel st ?_
  intro j _
  rcases j with _ | _ | j
  · simp [hst]
  · rw [Function.iterate_succ_apply', Function.iterate_zero_apply,
      (three_variable_steps eval index1 st).1 hst]
    rfl
  · rw [three_variable_run eval index1 st hst j]
    rfl

/-! ## The odometer for three or more variables -/

/-- For `number_of_variables = m + 3` the body of the loop keeps the following
shape of the index array: only the first three cells may be non-zero, the first
two are non-negative and their sum is at least `order`.  In particular the
search for the first non-zero cell always ends at cell 0 or 1 and the cell
`index_array[number_of_variables]` is never written. -/
lemma loop_body_three_le {α : Type} [Zero α] [DecidableEq α] (eval : ℤ → ℤ → α)
    (index1 : ℤ) (m : ℕ) (order : ℤ) (ho : 1 ≤ order) (st : State α) (a0 a1 a2 : ℤ)
    (hst : st.index_array = a0 :: a1 :: a2 :: List.replicate (m + 1) 0)
    (h0 : 0 ≤ a0) (h1 : 0 ≤ a1) (hs : order ≤ a0 + a1) :
    ∃ b0 b1 b2 : ℤ,
      (loop_body eval index1 (m + 3) order st).index_array =
        b0 :: b1 :: b2 :: List.replicate (m + 1) 0 ∧
      0 ≤ b0 ∧ 0 ≤ b1 ∧ order ≤ b0 + b1 := by
  by_cases ha0 : a0 = 0
  · subst ha0
    have ha1 : a1 ≠ 0 := by omega
    by_cases ha1o : a1 = order
    · subst ha1o
      refine ⟨a1 - 1, a1, 1, ?_, by omega, by omega, by omega⟩
      simp [loop_body, odometer_step, find_first_non_zero, List.range_succ_eq_map,
        List.find?, hst, ha1]
    · refine ⟨0, a1 - 1, a2 + 1, ?_, by omega, by omega, by omega⟩
      simp [loop_body, odometer_step, find_first_non_zero, List.range_succ_eq_map,
        List.find?, hst, ha1, ha1o]
  · by_cases ha0o : a0 = order
    · subst ha0o
      refine ⟨a0 - 1, 1, a2, ?_, by omega, by omega, by omega⟩
      simp [loop_body, odometer_step, find_first_non_zero, List.range_succ_eq_map,
        List.find?, hst, ha0]
    · refine ⟨a0 - 1, a1 + 1, a2, ?_, by omega, by omega, by omega⟩
      simp [loop_body, odometer_step, find_first_non_zero, List.range_succ_eq_map,
        List.find?, hst, ha0, ha0o]

/-- The shape of `loop_body_three_le` holds before every execution of the body. -/
lemma three_le_run {α : Type} [Zero α] [DecidableEq α] (eval : ℤ → ℤ → α)
    (index1 : ℤ) (m : ℕ) (order : ℤ) (ho : 1 ≤ order) (st : State α)
    (hst : st.index_array = order :: 0 :: 0 :: List.replicate (m + 1) 0) (j : ℕ) :
    ∃ b0 b1 b2 : ℤ,
      ((loop_body eval index1 (m + 3) order)^[j] st).index_array =
        b0 :: b1 :: b2 :: List.replicate (m + 1) 0 ∧
      0 ≤ b0 ∧ 0 ≤ b1 ∧ order ≤ b0 + b1 := by
  induction j with
  | zero => exact ⟨order, 0, 0, hst, by omega, le_refl 0, by omega⟩
  | succ j ih =>
    obtain ⟨b0, b1, b2, hb, hb0, hb1, hbs⟩ := ih
    rw [Function.iterate_succ_apply']
    exact loop_body_three_le eval index1 m order ho _ b0 b1 b2 hb hb0 hb1 hbs

/-- For three or more variables and any order of at least 1 the loop, started
as the source starts it, never ends. -/
lemma three_le_never_exits {α : Type} [Zero α] [DecidableEq α] (eval : ℤ → ℤ → α)
    (index1 : ℤ) (m : ℕ) (order : ℤ) (ho : 1 ≤ order) (st : State α)
    (hst : st.index_array = (List.replicate (m + 3 + 1) 0).set 0 order) (fuel : ℕ) :
    while_loop eval index1 (m + 3) order fuel st = none := by
  have hst' : st.index_array = order :: 0 :: 0 :: List.replicate (m + 1) 0 := by
    rw [hst]
    rfl
  refine while_loop_eq_none eval index1 (m + 3) order fuel st ?_
  intro j _
  obtain ⟨b0, b1, b2, hb, -, -, -⟩ := three_le_run eval index1 m order ho st hst' j
  rw [hb]
  simp

/-! ## First-order coefficients -/

/-- For radius > 0 and a row selector 1 or 2 the two first-order coefficients
(terms 10 and 01) are never both zero. -/
lemma first_order_not_both_zero (radius ang n1 n2 : ℝ) (row : ℤ) (hr : 0 < radius)
    (hrow : row = 1 ∨ row = 2) :
    calculate_aberration radius ang n1 n2 row 10 ≠ 0 ∨
      calculate_aberration radius ang n1 n2 row 1 ≠ 0 := by
  have hh : 1 / radius ≠ 0 := one_div_ne_zero hr.ne'
  rcases lt_trichotomy n1 3 with hlt | heq | hgt
  · have hk : 1 / radius * Real.sqrt (3 - n1) ≠ 0 :=
      mul_ne_zero hh (Real.sqrt_pos.mpr (sub_pos.mpr hlt)).ne'
    have hsin : ∀ x : ℝ, Real.cos x = 0 → Real.sin x ≠ 0 := by
      intro x hc hs
      have h := Real.sin_sq_add_cos_sq x
      rw [hc, hs] at h
      norm_num at h
    rcases hrow with rfl | rfl
    · simp only [calculate_aberration, hlt, ↓reduceIte, Int.reduceEq]
      by_cases hc : Real.cos (1 / radius * Real.sqrt (3 - n1) *
          (radius * (Real.pi / 180) * ang)) = 0
      · exact Or.inr (div_ne_zero (hsin _ hc) hk)
      · exact Or.inl hc
    · simp only [calculate_aberration, hlt, ↓reduceIte, Int.reduceEq]
      by_cases hc : Real.cos (1 / radius * Real.sqrt (3 - n1) *
          (radius * (Real.pi / 180) * ang)) = 0
      · exact Or.inl (mul_ne_zero (neg_ne_zero.mpr hk) (hsin _ hc))
      · exact Or.inr hc
  · subst heq
    rcases hrow with rfl | rfl
    · left
      simp only [calculate_aberration, lt_self_iff_false, gt_iff_lt, ↓reduceIte, Int.reduceEq]
      exact one_ne_zero
    · right
      simp only [calculate_aberration, lt_self_iff_false, gt_iff_lt, ↓reduceIte, Int.reduceEq]
      exact one_ne_zero
  · have hnlt : ¬ n1 < 3 := not_lt.mpr hgt.le
    rcases hrow with rfl | rfl
    · left
      simp only [calculate_aberration, hnlt, hgt, gt_iff_lt, ↓reduceIte, Int.reduceEq]
      exact (Real.cosh_pos _).ne'
    · right
      simp only [calculate_aberration, hnlt, hgt, gt_iff_lt, ↓reduceIte, Int.reduceEq]
      exact (Real.cosh_pos _).ne'

/-- In Regimes A and C (n1 ≤ 3) the first-order coefficients have determinant 1. -/
lemma first_order_determinant_of_le (radius ang n1 n2 : ℝ) (hr : 0 < radius) (hle : n1 ≤ 3) :
    calculate_aberration radius ang n1 n2 1 10 * calculate_aberration radius ang n1 n2 2 1 -
      calculate_aberration radius ang n1 n2 1 1 * calculate_aberration radius ang n1 n2 2 10
      = 1 := by
  rcases hle.lt_or_eq with hlt | heq
  · have hk : 1 / radius * Real.sqrt (3 - n1) ≠ 0 :=
      mul_ne_zero (one_div_ne_zero hr.ne') (Real.sqrt_pos.mpr (sub_pos.mpr hlt)).ne'
    simp only [calculate_aberration, hlt, ↓reduceIte, Int.reduceEq]
    have h := Real.sin_sq_add_cos_sq
      (1 / radius * Real.sqrt (3 - n1) * (radius * (Real.pi / 180) * ang))
    generalize Real.sin (1 / radius * Real.sqrt (3 - n1) *
      (radius * (Real.pi / 180) * ang)) = S at h ⊢
    generalize Real.cos (1 / radius * Real.sqrt (3 - n1) *
      (radius * (Real.pi / 180) * ang)) = C at h ⊢
    generalize 1 / radius * Real.sqrt (3 - n1) = k at hk ⊢
    field_simp
    linear_combination k * h
  · subst heq
    simp only [calculate_aberration, lt_self_iff_false, gt_iff_lt, ↓reduceIte, Int.reduceEq]
    ring

/-- In Regime B (n1 > 3) the determinant of the first-order coefficients is
`cosh^2 + sinh^2` of `s3n1 * s`, which is `1 + 2 sinh^2`. -/
lemma first_order_determinant_of_gt (radius ang n1 n2 : ℝ) (hr : 0 < radius) (hgt : n1 > 3) :
    calculate_aberration radius ang n1 n2 1 10 * calculate_aberration radius ang n1 n2 2 1 -
      calculate_aberration radius ang n1 n2 1 1 * calculate_aberration radius ang n1 n2 2 10
      = 1 + 2 * Real.sinh (1 / radius * Real.sqrt (n1 - 3) *
          (radius * (Real.pi / 180) * ang)) ^ 2 := by
  have hnlt : ¬ n1 < 3 := not_lt.mpr hgt.le
  have hk : 1 / radius * Real.sqrt (n1 - 3) ≠ 0 :=
    mul_ne_zero (one_div_ne_zero hr.ne') (Real.sqrt_pos.mpr (sub_pos.mpr hgt)).ne'
  simp only [calculate_aberration, hnlt, hgt, gt_iff_lt, ↓reduceIte, Int.reduceEq]
  have h := Real.cosh_sq
    (1 / radius * Real.sqrt (n1 - 3) * (radius * (Real.pi / 180) * ang))
  generalize Real.sinh (1 / radius * Real.sqrt (n1 - 3) *
    (radius * (Real.pi / 180) * ang)) = S at h ⊢
  generalize Real.cosh (1 / radius * Real.sqrt (n1 - 3) *
    (radius * (Real.pi / 180) * ang)) = C at h ⊢
  generalize 1 / radius * Real.sqrt (n1 - 3) = k at hk ⊢
  field_simp
  linear_combination k * h

/-! ## The coefficients at angle 0 -/

/-- The ten coefficients at angle 0: 1 for (row 1, term 10) and (row 2, term 01),
0 for the other eight, in every regime. -/
lemma zero_angle_values (radius n1 n2 : ℝ) :
    calculate_aberration radius 0 n1 n2 1 10 = 1 ∧
    calculate_aberration radius 0 n1 n2 1 1 = 0 ∧
    calculate_aberration radius 0 n1 n2 1 20 = 0 ∧
    calculate_aberration radius 0 n1 n2 1 11 = 0 ∧
    calculate_aberration radius 0 n1 n2 1 2 = 0 ∧
    calculate_aberration radius 0 n1 n2 2 10 = 0 ∧
    calculate_aberration radius 0 n1 n2 2 1 = 1 ∧
    calculate_aberration radius 0 n1 n2 2 20 = 0 ∧
    calculate_aberration radius 0 n1 n2 2 11 = 0 ∧
    calculate_aberration radius 0 n1 n2 2 2 = 0 := by
  rcases lt_trichotomy n1 3 with hlt | heq | hgt
  · refine ⟨?_, ?_, ?_, ?_, ?_, ?_, ?_, ?_, ?_, ?_⟩ <;>
      simp only [calculate_aberration, hlt, ↓reduceIte, Int.reduceEq, mul_zero, zero_div,
        zero_mul, add_zero, Real.sin_zero, Real.cos_zero, pow_two_eq, neg_zero] <;>
      ring
  · subst heq
    refine ⟨?_, ?_, ?_, ?_, ?_, ?_, ?_, ?_, ?_, ?_⟩ <;>
      simp only [calculate_aberration, lt_self_iff_false, gt_iff_lt, ↓reduceIte, Int.reduceEq,
        mul_zero, zero_div, zero_mul, add_zero]
  · have hnlt : ¬ n1 < 3 := not_lt.mpr hgt.le
    refine ⟨?_, ?_, ?_, ?_, ?_, ?_, ?_, ?_, ?_, ?_⟩ <;>
      simp only [calculate_aberration, hnlt, hgt, gt_iff_lt, ↓reduceIte, Int.reduceEq,
        mul_zero, zero_div, zero_mul, add_zero, Real.sinh_zero, Real.cosh_zero, neg_zero,
        sub_self] <;>
      ring

/-! ## Scaling the radius -/

/-- The 1.5-power in Regime A: `pow (h*h*(3-n1)) 1.5 = (h*sqrt(3-n1))^3`. -/
lemma pow15_base (h n1 : ℝ) (hh : 0 ≤ h) (hlt : n1 < 3) :
    pow (h * h * (3 - n1)) 1.5 = (h * Real.sqrt (3 - n1)) ^ 3 := by
  have hpos : 0 ≤ 3 - n1 := (sub_pos.mpr hlt).le
  have hsq : h * h * (3 - n1) = (h * Real.sqrt (3 - n1)) ^ 2 := by
    rw [mul_pow, Real.sq_sqrt hpos]
    ring
  rw [hsq, pow15_sq _ (mul_nonneg hh (Real.sqrt_nonneg _))]

/-- The product `s3n1 * s` (times a constant) does not change when the radius is scaled. -/
lemma scale_arg (lam radius c t a : ℝ) (hlam : lam ≠ 0) (hr : radius ≠ 0) :
    c * (1 / (lam * radius) * t) * (lam * radius * (Real.pi / 180) * a) =
      c * (1 / radius * t) * (radius * (Real.pi / 180) * a) := by
  field_simp
  ring

/-- The product `s3n1 * s` does not change when the radius is scaled. -/
lemma scale_arg_one (lam radius t a : ℝ) (hlam : lam ≠ 0) (hr : radius ≠ 0) :
    1 / (lam * radius) * t * (lam * radius * (Real.pi / 180) * a) =
      1 / radius * t * (radius * (Real.pi / 180) * a) := by
  field_simp
  ring

/-- Scaling of the ten Regime A coefficients with the radius. -/
lemma scale_radius_regime_A (lam radius ang n1 n2 : ℝ) (hlam : 0 < lam) (hr : 0 < radius)
    (hlt : n1 < 3) :
    calculate_aberration (lam * radius) ang n1 n2 1 10 =
      calculate_aberration radius ang n1 n2 1 10 ∧
    calculate_aberration (lam * radius) ang n1 n2 1 1 =
      lam * calculate_aberration radius ang n1 n2 1 1 ∧
    calculate_aberration (lam * radius) ang n1 n2 1 20 =
      lam⁻¹ * calculate_aberration radius ang n1 n2 1 20 ∧
    calculate_aberration (lam * radius) ang n1 n2 1 11 =
      calculate_aberration radius ang n1 n2 1 11 ∧
    calculate_aberration (lam * radius) ang n1 n2 1 2 =
      lam * calculate_aberration radius ang n1 n2 1 2 ∧
    calculate_aberration (lam * radius) ang n1 n2 2 10 =
      lam⁻¹ * calculate_aberration radius ang n1 n2 2 10 ∧
    calculate_aberration (lam * radius) ang n1 n2 2 1 =
      calculate_aberration radius ang n1 n2 2 1 ∧
    calculate_aberration (lam * radius) ang n1 n2 2 20 =
      (lam ^ 2)⁻¹ * calculate_aberration radius ang n1 n2 2 20 ∧
    calculate_aberration (lam * radius) ang n1 n2 2 11 =
      lam⁻¹ * calculate_aberration radius ang n1 n2 2 11 ∧
    calculate_aberration (lam * radius) ang n1 n2 2 2 =
      calculate_aberration radius ang n1 n2 2 2 := by
  have hl0 : lam ≠ 0 := hlam.ne'
  have hr0 : radius ≠ 0 := hr.ne'
  have hroot : Real.sqrt (3 - n1) ≠ 0 := (Real.sqrt_pos.mpr (sub_pos.mpr hlt)).ne'
  have hn : n1 - 3 ≠ 0 := sub_ne_zero.mpr hlt.ne
  have e1 := scale_arg_one lam radius (Real.sqrt (3 - n1)) ang hl0 hr0
  have e2 := scale_arg lam radius 2 (Real.sqrt (3 - n1)) ang hl0 hr0
  have p1 := pow15_base (1 / (lam * radius)) n1 (by positivity) hlt
  have p2 := pow15_base (1 / radius) n1 (by positivity) hlt
  refine ⟨?_, ?_, ?_, ?_, ?_, ?_, ?_, ?_, ?_, ?_⟩ <;>
    simp only [calculate_aberration, hlt, ↓reduceIte, Int.reduceEq, e1, e2, p1, p2,
      pow_two_eq, pow_three_eq] <;>
    generalize Real.cos (1 / radius * Real.sqrt (3 - n1) *
      (radius * (Real.pi / 180) * ang)) = C <;>
    generalize Real.sin (1 / radius * Real.sqrt (3 - n1) *
      (radius * (Real.pi / 180) * ang)) = S <;>
    generalize Real.sin (1 / radius * Real.sqrt (3 - n1) *
      (radius * (Real.pi / 180) * ang) / 2) = S2 <;>
    generalize Real.sin (2 * (1 / radius * Real.sqrt (3 - n1)) *
      (radius * (Real.pi / 180) * ang)) = S3 <;>
    generalize Real.sqrt (3 - n1) = t at hroot ⊢ <;>
    first
    | ring1
    | (field_simp; ring1)

/-- Scaling of the ten Regime B coefficients with the radius. -/
lemma scale_radius_regime_B (lam radius ang n1 n2 : ℝ) (hlam : 0 < lam) (hr : 0 < radius)
    (hgt : n1 > 3) :
    calculate_aberration (lam * radius) ang n1 n2 1 10 =
      calculate_aberration radius ang n1 n2 1 10 ∧
    calculate_aberration (lam * radius) ang n1 n2 1 1 =
      lam * calculate_aberration radius ang n1 n2 1 1 ∧
    calculate_aberration (lam * radius) ang n1 n2 1 20 =
      lam⁻¹ * calculate_aberration radius ang n1 n2 1 20 ∧
    calculate_aberration (lam * radius) ang n1 n2 1 11 =
      calculate_aberration radius ang n1 n2 1 11 ∧
    calculate_aberration (lam * radius) ang n1 n2 1 2 =
      lam * calculate_aberration radius ang n1 n2 1 2 ∧
    calculate_aberration (lam * radius) ang n1 n2 2 10 =
      lam⁻¹ * calculate_aberration radius ang n1 n2 2 10 ∧
    calculate_aberration (lam * radius) ang n1 n2 2 1 =
      calculate_aberration radius ang n1 n2 2 1 ∧
    calculate_aberration (lam * radius) ang n1 n2 2 20 =
      (lam ^ 2)⁻¹ * calculate_aberration radius ang n1 n2 2 20 ∧
    calculate_aberration (lam * radius) ang n1 n2 2 11 =
      lam⁻¹ * calculate_aberration radius ang n1 n2 2 11 ∧
    calculate_aberration (lam * radius) ang n1 n2 2 2 =
      calculate_aberration radius ang n1 n2 2 2 := by
  have hl0 : lam ≠ 0 := hlam.ne'
  have hr0 : radius ≠ 0 := hr.ne'
  have hnlt : ¬ n1 < 3 := not_lt.mpr hgt.le
  have hroot : Real.sqrt (n1 - 3) ≠ 0 := (Real.sqrt_pos.mpr (sub_pos.mpr hgt)).ne'
  have hn : n1 - 3 ≠ 0 := (sub_pos.mpr hgt).ne'
  have hp : pow (n1 - 3) 1.5 ≠ 0 := (Real.rpow_pos_of_pos (sub_pos.mpr hgt) _).ne'
  have e1 := scale_arg_one lam radius (Real.sqrt (n1 - 3)) ang hl0 hr0
  have e2 := scale_arg lam radius 2 (Real.sqrt (n1 - 3)) ang hl0 hr0
  have e4 := scale_arg lam radius 4 (Real.sqrt (n1 - 3)) ang hl0 hr0
  refine ⟨?_, ?_, ?_, ?_, ?_, ?_, ?_, ?_, ?_, ?_⟩ <;>
    simp only [calculate_aberration, hnlt, hgt, gt_iff_lt, ↓reduceIte, Int.reduceEq, e1, e2,
      e4, pow_two_eq] <;>
    generalize Real.cosh (1 / radius * Real.sqrt (n1 - 3) *
      (radius * (Real.pi / 180) * ang)) = C <;>
    generalize Real.sinh (1 / radius * Real.sqrt (n1 - 3) *
      (radius * (Real.pi / 180) * ang)) = S <;>
    generalize Real.cosh (2 * (1 / radius * Real.sqrt (n1 - 3)) *
      (radius * (Real.pi / 180) * ang)) = C2 <;>
    generalize Real.sinh (2 * (1 / radius * Real.sqrt (n1 - 3)) *
      (radius * (Real.pi / 180) * ang)) = S2 <;>
    generalize Real.cosh (4 * (1 / radius * Real.sqrt (n1 - 3)) *
      (radius * (Real.pi / 180) * ang)) = C4 <;>
    generalize Real.sinh (4 * (1 / radius * Real.sqrt (n1 - 3)) *
      (radius * (Real.pi / 180) * ang)) = S4 <;>
    generalize Real.sqrt (n1 - 3) = t at hroot ⊢ <;>
    generalize pow (n1 - 3) 1.5 = p at hp ⊢ <;>
    first
    | ring1
    | (field_simp; ring1)
    | (field_simp; left; ring1)

/-- Scaling of the ten Regime C coefficients with the radius. -/
lemma scale_radius_regime_C (lam radius ang n2 : ℝ) (hlam : 0 < lam) (hr : 0 < radius) :
    calculate_aberration (lam * radius) ang 3 n2 1 10 =
      calculate_aberration radius ang 3 n2 1 10 ∧
    calculate_aberration (lam * radius) ang 3 n2 1 1 =
      lam * calculate_aberration radius ang 3 n2 1 1 ∧
    calculate_aberration (lam * radius) ang 3 n2 1 20 =
      lam⁻¹ * calculate_aberration radius ang 3 n2 1 20 ∧
    calculate_aberration (lam * radius) ang 3 n2 1 11 =
      calculate_aberration radius ang 3 n2 1 11 ∧
    calculate_aberration (lam * radius) ang 3 n2 1 2 =
      lam * calculate_aberration radius ang 3 n2 1 2 ∧
    calculate_aberration (lam * radius) ang 3 n2 2 10 =
      lam⁻¹ * calculate_aberration radius ang 3 n2 2 10 ∧
    calculate_aberration (lam * radius) ang 3 n2 2 1 =
      calculate_aberration radius ang 3 n2 2 1 ∧
    calculate_aberration (lam * radius) ang 3 n2 2 20 =
      (lam ^ 2)⁻¹ * calculate_aberration radius ang 3 n2 2 20 ∧
    calculate_aberration (lam * radius) ang 3 n2 2 11 =
      lam⁻¹ * calculate_aberration radius ang 3 n2 2 11 ∧
    calculate_aberration (lam * radius) ang 3 n2 2 2 =
      calculate_aberration radius ang 3 n2 2 2 := by
  have hl0 : lam ≠ 0 := hlam.ne'
  have hr0 : radius ≠ 0 := hr.ne'
  refine ⟨?_, ?_, ?_, ?_, ?_, ?_, ?_, ?_, ?_, ?_⟩ <;>
    simp only [calculate_aberration, lt_self_iff_false, gt_iff_lt, ↓reduceIte,
      Int.reduceEq] <;>
    generalize Real.pi / 180 = q <;>
    first
    | ring1
    | (field_simp; ring1)

/-- The ten coefficients scale with the radius as stated below, in every regime. -/
lemma scale_radius (lam radius ang n1 n2 : ℝ) (hlam : 0 < lam) (hr : 0 < radius) :
    calculate_aberration (lam * radius) ang n1 n2 1 10 =
      calculate_aberration radius ang n1 n2 1 10 ∧
    calculate_aberration (lam * radius) ang n1 n2 1 1 =
      lam * calculate_aberration radius ang n1 n2 1 1 ∧
    calculate_aberration (lam * radius) ang n1 n2 1 20 =
      lam⁻¹ * calculate_aberration radius ang n1 n2 1 20 ∧
    calculate_aberration (lam * radius) ang n1 n2 1 11 =
      calculate_aberration radius ang n1 n2 1 11 ∧
    calculate_aberration (lam * radius) ang n1 n2 1 2 =
      lam * calculate_aberration radius ang n1 n2 1 2 ∧
    calculate_aberration (lam * radius) ang n1 n2 2 10 =
      lam⁻¹ * calculate_aberration radius ang n1 n2 2 10 ∧
    calculate_aberration (lam * radius) ang n1 n2 2 1 =
      calculate_aberration radius ang n1 n2 2 1 ∧
    calculate_aberration (lam * radius) ang n1 n2 2 20 =
      (lam ^ 2)⁻¹ * calculate_aberration radius ang n1 n2 2 20 ∧
    calculate_aberration (lam * radius) ang n1 n2 2 11 =
      lam⁻¹ * calculate_aberration radius ang n1 n2 2 11 ∧
    calculate_aberration (lam * radius) ang n1 n2 2 2 =
      calculate_aberration radius ang n1 n2 2 2 := by
  rcases lt_trichotomy n1 3 with hlt | heq | hgt
  · exact scale_radius_regime_A lam radius ang n1 n2 hlam hr hlt
  · subst heq
    exact scale_radius_regime_C lam radius ang n2 hlam hr
  · exact scale_radius_regime_B lam radius ang n1 n2 hlam hr hgt

/-! ## Theorems -/

/-- Claim C1: for every radius > 0 and every valid (row, term), the evaluator
returns the value of the specification's table for the regime selected by `n1`
(A with k = h*sqrt(3-n1) when n1 < 3, B with k = h*sqrt(n1-3) when n1 > 3,
C when n1 = 3), and exactly one regime applies to each real `n1`. -/
theorem C1_evaluator_matches_spec_tables (radius ang n1 n2 : ℝ) (row term : ℤ)
    (_hr : 0 < radius) (hrow : row = 1 ∨ row = 2)
    (hterm : term = 10 ∨ term = 1 ∨ term = 20 ∨ term = 11 ∨ term = 2) :
    (n1 < 3 → calculate_aberration radius ang n1 n2 row term =
        spec_regime_A (1 / radius) (1 / radius * Real.sqrt (3 - n1))
          (radius * (Real.pi / 180) * ang) n1 n2 row term) ∧
    (n1 > 3 → calculate_aberration radius ang n1 n2 row term =
        spec_regime_B (1 / radius) (1 / radius * Real.sqrt (n1 - 3))
          (radius * (Real.pi / 180) * ang) n1 n2 row term) ∧
    (n1 = 3 → calculate_aberration radius ang n1 n2 row term =
        spec_regime_C (1 / radius) (radius * (Real.pi / 180) * ang) n2 row term) ∧
    ((n1 < 3 ∧ ¬ n1 > 3 ∧ ¬ n1 = 3) ∨ (¬ n1 < 3 ∧ n1 > 3 ∧ ¬ n1 = 3) ∨
      (¬ n1 < 3 ∧ ¬ n1 > 3 ∧ n1 = 3)) := by
  refine ⟨?_, ?_, ?_, ?_⟩
  · intro hlt
    rcases hrow with rfl | rfl <;> rcases hterm with rfl | rfl | rfl | rfl | rfl <;>
      simp only [calculate_aberration, spec_regime_A, hlt, ↓reduceIte, Int.reduceEq,
        pow_two_eq, pow_three_eq, pow_15_eq, ← sq]
  · intro hgt
    have hnlt : ¬ n1 < 3 := not_lt.mpr hgt.le
    rcases hrow with rfl | rfl <;> rcases hterm with rfl | rfl | rfl | rfl | rfl <;>
      simp only [calculate_aberration, spec_regime_B, hgt, hnlt, gt_iff_lt, ↓reduceIte,
        Int.reduceEq, pow_two_eq, pow_three_eq, pow_15_eq] <;>
      ring
  · intro heq
    subst heq
    rcases hrow with rfl | rfl <;> rcases hterm with rfl | rfl | rfl | rfl | rfl <;>
      simp only [calculate_aberration, spec_regime_C, lt_self_iff_false, gt_iff_lt, ↓reduceIte,
        Int.reduceEq] <;>
      ring
  · rcases lt_trichotomy n1 3 with h | h | h
    · exact Or.inl ⟨h, not_lt.mpr h.le, h.ne⟩
    · exact Or.inr (Or.inr ⟨by simp [h], by simp [h], h⟩)
    · exact Or.inr (Or.inl ⟨not_lt.mpr h.le, h, h.ne'⟩)

theorem C1_evaluator_matches_spec_tables_witness :
    calculate_aberration 1 30 1.5 0.5 1 20 =
        spec_regime_A (1 / 1) (1 / 1 * Real.sqrt (3 - 1.5)) (1 * (Real.pi / 180) * 30)
          1.5 0.5 1 20 ∧
    calculate_aberration 1 30 4 0.5 2 2 =
        spec_regime_B (1 / 1) (1 / 1 * Real.sqrt (4 - 3)) (1 * (Real.pi / 180) * 30)
          4 0.5 2 2 ∧
    calculate_aberration 1 30 3 0.5 1 11 =
        spec_regime_C (1 / 1) (1 * (Real.pi / 180) * 30) 0.5 1 11 :=
  ⟨(C1_evaluator_matches_spec_tables 1 30 1.5 0.5 1 20 one_pos (Or.inl rfl)
      (Or.inr (Or.inr (Or.inl rfl)))).1 (by norm_num),
    (C1_evaluator_matches_spec_tables 1 30 4 0.5 2 2 one_pos (Or.inr rfl)
      (Or.inr (Or.inr (Or.inr (Or.inr rfl))))).2.1 (by norm_num),
    (C1_evaluator_matches_spec_tables 1 30 3 0.5 1 11 one_pos (Or.inl rfl)
      (Or.inr (Or.inr (Or.inr (Or.inl rfl))))).2.2.1 rfl⟩

/-- Claim C2 (continuity from below): for every radius > 0, angle and n2 and each
of the ten (row, term) pairs, the value of the evaluator (computed by the n1 < 3
branch) converges, as n1 tends to 3 from below, to its value at n1 = 3 (computed
by the n1 = 3 branch). -/
theorem C2_continuity_from_below (radius ang n2 : ℝ) (row term : ℤ) (hr : 0 < radius)
    (hrow : row = 1 ∨ row = 2)
    (hterm : term = 10 ∨ term = 1 ∨ term = 20 ∨ term = 11 ∨ term = 2) :
    Tendsto (fun n1 => calculate_aberration radius ang n1 n2 row term) (𝓝[<] 3)
      (𝓝 (calculate_aberration radius ang 3 n2 row term)) := by
  rcases hrow with rfl | rfl <;> rcases hterm with rfl | rfl | rfl | rfl | rfl
  · exact tendsto_below_1_10 radius ang n2 hr
  · exact tendsto_below_1_1 radius ang n2 hr
  · exact tendsto_below_1_20 radius ang n2 hr
  · exact tendsto_below_1_11 radius ang n2 hr
  · exact tendsto_below_1_2 radius ang n2 hr
  · exact tendsto_below_2_10 radius ang n2 hr
  · exact tendsto_below_2_1 radius ang n2 hr
  · exact tendsto_below_2_20 radius ang n2 hr
  · exact tendsto_below_2_11 radius ang n2 hr
  · exact tendsto_below_2_2 radius ang n2 hr

theorem C2_continuity_from_below_witness :
    Tendsto (fun n1 => calculate_aberration 1 30 n1 0.5 1 11) (𝓝[<] 3)
      (𝓝 (calculate_aberration 1 30 3 0.5 1 11)) :=
  C2_continuity_from_below 1 30 0.5 1 11 one_pos (Or.inl rfl)
    (Or.inr (Or.inr (Or.inr (Or.inl rfl))))

/-- Claim C3 (continuity from above) fails on the code at the fixture of the
specification, radius = 1 and s = 1 (angle = 180/pi degrees), with n2 = 0.  Row 1,
term 20: the value at n1 = 3 is 6, the value at n1 = 3 + 1e-6 differs from it by
more than 1e-4, and the Regime B values do not converge to the Regime C value as
n1 tends to 3 from above.  Row 1, term 01: the value at n1 = 3 is 1 and the
Regime B values do not converge to it either. -/
theorem C3_regime_B_row1_not_continuous_from_above :
    calculate_aberration 1 (180 / Real.pi) 3 0 1 20 = 6 ∧
    1e-4 < |calculate_aberration 1 (180 / Real.pi) (3 + 1e-6) 0 1 20 -
      calculate_aberration 1 (180 / Real.pi) 3 0 1 20| ∧
    ¬ Tendsto (fun n1 => calculate_aberration 1 (180 / Real.pi) n1 0 1 20) (𝓝[>] 3)
      (𝓝 (calculate_aberration 1 (180 / Real.pi) 3 0 1 20)) ∧
    calculate_aberration 1 (180 / Real.pi) 3 0 1 1 = 1 ∧
    ¬ Tendsto (fun n1 => calculate_aberration 1 (180 / Real.pi) n1 0 1 1) (𝓝[>] 3)
      (𝓝 (calculate_aberration 1 (180 / Real.pi) 3 0 1 1)) := by
  have h3 : calculate_aberration 1 (180 / Real.pi) 3 0 1 20 = 6 := by
    simp only [calculate_aberration, lt_self_iff_false, gt_iff_lt, ↓reduceIte, Int.reduceEq,
      div_one, one_mul, fixture_arc_length]
    norm_num
  have h1 : calculate_aberration 1 (180 / Real.pi) 3 0 1 1 = 1 := by
    simp only [calculate_aberration, lt_self_iff_false, gt_iff_lt, ↓reduceIte, Int.reduceEq,
      one_mul, fixture_arc_length]
  refine ⟨h3, ?_, ?_, h1, ?_⟩
  · have hle := regime_B_fixture_nonpos (3 + 1e-6) (by norm_num)
    rw [h3, abs_of_nonpos (by linarith)]
    norm_num
    linarith
  · rw [h3]
    intro hlim
    have hev : ∀ᶠ n1 in 𝓝[>] (3 : ℝ),
        calculate_aberration 1 (180 / Real.pi) n1 0 1 20 ≤ 0 := by
      filter_upwards [self_mem_nhdsWithin] with n1 hn1
      exact regime_B_fixture_nonpos n1 hn1
    have := le_of_tendsto hlim hev
    norm_num at this
  · rw [h1]
    intro hlim
    have hev : ∀ᶠ n1 in 𝓝[>] (3 : ℝ),
        calculate_aberration 1 (180 / Real.pi) n1 0 1 1 ≤ 0 := by
      filter_upwards [self_mem_nhdsWithin] with n1 hn1
      exact regime_B_fixture_term1_nonpos n1 0 hn1
    have := le_of_tendsto hlim hev
    norm_num at this

/-- Claim C4 (sentinel completeness): whenever the row selector is not 1 or 2,
or the term selector is not one of 10, 1, 20, 11, 2, the evaluator returns
exactly 0, whatever the radius, angle, n1 and n2 (so in all three regimes). -/
theorem C4_sentinel_returns_zero (radius ang n1 n2 : ℝ) (index1 index2 : ℤ)
    (hsel : ¬ (index1 = 1 ∨ index1 = 2) ∨
      ¬ (index2 = 10 ∨ index2 = 1 ∨ index2 = 20 ∨ index2 = 11 ∨ index2 = 2)) :
    calculate_aberration radius ang n1 n2 index1 index2 = 0 := by
  rcases hsel with h | h
  · push_neg at h
    simp only [calculate_aberration, h.1, h.2, ↓reduceIte, ite_self]
  · push_neg at h
    obtain ⟨h10, h1, h20, h11, h2⟩ := h
    simp only [calculate_aberration, h10, h1, h20, h11, h2, ↓reduceIte, ite_self]

theorem C4_sentinel_returns_zero_witness :
    calculate_aberration 1 30 1.5 0.5 1 12 = 0 ∧ calculate_aberration 1 30 4 0.5 3 10 = 0 ∧
      calculate_aberration 1 30 3 0.5 2 21 = 0 :=
  ⟨C4_sentinel_returns_zero 1 30 1.5 0.5 1 12 (Or.inr (by decide)),
   C4_sentinel_returns_zero 1 30 4 0.5 3 10 (Or.inl (by decide)),
   C4_sentinel_returns_zero 1 30 3 0.5 2 21 (Or.inr (by decide))⟩

/-- Claim C5 (enumeration ordering): for every parameter set and row selector,
`print_aberrations` (given fuel for at least 3 loop iterations per order)
terminates having called the evaluator exactly five times, with the row selector
it was given and the packed term selectors 10, 1, 20, 11, 2 in this order,
which are the packed monomials (1,0), (0,1), (2,0), (1,1), (0,2); every selector
passed is one of the five case labels of `calculate_aberration`. -/
theorem C5_enumeration_order (fuel : ℕ) (radius ang n1 n2 : ℝ) (index1 : ℤ)
    (hfuel : 3 ≤ fuel) :
    ∃ st, print_aberrations fuel radius ang n1 n2 index1 = some st ∧
      st.calls = [(index1, 10), (index1, 1), (index1, 20), (index1, 11), (index1, 2)] ∧
      st.calls.map Prod.snd = enumerated_monomials.map (fun m => 10 * m.1 + m.2) ∧
      st.calls.length = 5 ∧
      ∀ c ∈ st.calls, c.1 = index1 ∧ (c.2 = 10 ∨ c.2 = 1 ∨ c.2 = 20 ∨ c.2 = 11 ∨ c.2 = 2) := by
  refine ⟨_, print_aberrations_with_two_two _ index1 fuel hfuel, rfl, rfl, rfl, ?_⟩
  intro c hc
  simp only [List.mem_cons, List.mem_singleton, List.not_mem_nil, or_false] at hc
  rcases hc with rfl | rfl | rfl | rfl | rfl <;> simp

theorem C5_enumeration_order_witness :
    ∃ st, print_aberrations 3 1 30 1.5 0.5 1 = some st ∧
      st.calls = [(1, 10), (1, 1), (1, 20), (1, 11), (1, 2)] ∧
      st.calls.map Prod.snd = enumerated_monomials.map (fun m => 10 * m.1 + m.2) ∧
      st.calls.length = 5 ∧
      ∀ c ∈ st.calls, c.1 = 1 ∧ (c.2 = 10 ∨ c.2 = 1 ∨ c.2 = 20 ∨ c.2 = 11 ∨ c.2 = 2) :=
  C5_enumeration_order 3 1 30 1.5 0.5 1 (le_refl 3)

/-- Claim C6 (report rows) fails on the code in the exponents: the k-th data
row does carry the index k, the coefficient and the order of the k-th monomial
with a non-zero coefficient, but its index string holds the last exponent only.
At radius = 1, angle = 0, n1 = 3, n2 = 0 the one data row for row selector 1
belongs to the monomial (1,0) and holds `0` where the claim requires `1 0`; the
one data row for row selector 2 belongs to (0,1) and holds `1` where the claim
requires `0 1`. -/
theorem C6_report_rows_lose_first_exponent :
    (∃ st, print_aberrations 3 1 0 3 0 1 = some st ∧
      st.output = [Line.header, Line.row 1 1 1 [0], Line.separator] ∧
      expected_rows (calculate_aberration 1 0 3 0) 1 = [Line.row 1 1 1 [1, 0]] ∧
      st.output.filter Line.is_row ≠ expected_rows (calculate_aberration 1 0 3 0) 1) ∧
    (∃ st, print_aberrations 3 1 0 3 0 2 = some st ∧
      st.output = [Line.header, Line.row 1 1 1 [1], Line.separator] ∧
      expected_rows (calculate_aberration 1 0 3 0) 2 = [Line.row 1 1 1 [0, 1]] ∧
      st.output.filter Line.is_row ≠ expected_rows (calculate_aberration 1 0 3 0) 2) := by
  obtain ⟨h110, h11, h120, h111, h12, h210, h21, h220, h211, h22⟩ :=
    zero_angle_values 1 3 0
  have hw1 : written_rows (calculate_aberration 1 0 3 0) 1 = [Line.row 1 1 1 [0]] := by
    simp [written_rows, enumerated_monomials, List.filter, List.enumFrom, h110, h11, h120,
      h111, h12]
  have hw2 : written_rows (calculate_aberration 1 0 3 0) 2 = [Line.row 1 1 1 [1]] := by
    simp [written_rows, enumerated_monomials, List.filter, List.enumFrom, h210, h21, h220,
      h211, h22]
  have he1 : expected_rows (calculate_aberration 1 0 3 0) 1 = [Line.row 1 1 1 [1, 0]] := by
    simp [expected_rows, enumerated_monomials, List.filter, List.enumFrom, h110, h11, h120,
      h111, h12]
  have he2 : expected_rows (calculate_aberration 1 0 3 0) 2 = [Line.row 1 1 1 [0, 1]] := by
    simp [expected_rows, enumerated_monomials, List.filter, List.enumFrom, h210, h21, h220,
      h211, h22]
  refine ⟨⟨_, print_aberrations_with_two_two _ 1 3 (le_refl 3), ?_, he1, ?_⟩,
    ⟨_, print_aberrations_with_two_two _ 2 3 (le_refl 3), ?_, he2, ?_⟩⟩
  · simp [hw1]
  · simp [hw1, he1, Line.is_row]
  · simp [hw2]
  · simp [hw2, he2, Line.is_row]

/-- Claim C7 (all-zero marker): for every parameter set and row selector,
`print_aberrations` writes the line ALL COMPONENTS ZERO if and only if all five
enumerated coefficients are 0; then the output is that line and the separator
(no column header, no data row); otherwise the output is the column header
once, directly followed by the (non-empty) data rows, then the separator.  In
both cases the last line is the separator. -/
theorem C7_all_zero_marker (fuel : ℕ) (radius ang n1 n2 : ℝ) (index1 : ℤ)
    (hfuel : 3 ≤ fuel) :
    ∃ st, print_aberrations fuel radius ang n1 n2 index1 = some st ∧
      (Line.all_zero ∈ st.output ↔ ∀ m ∈ enumerated_monomials,
        calculate_aberration radius ang n1 n2 index1 (10 * m.1 + m.2) = 0) ∧
      ((∀ m ∈ enumerated_monomials,
          calculate_aberration radius ang n1 n2 index1 (10 * m.1 + m.2) = 0) →
        st.output = [Line.all_zero, Line.separator]) ∧
      ((¬ ∀ m ∈ enumerated_monomials,
          calculate_aberration radius ang n1 n2 index1 (10 * m.1 + m.2) = 0) →
        ∃ first rest, (∀ l ∈ first :: rest, l.is_row = true) ∧
          st.output = Line.header :: first :: rest ++ [Line.separator] ∧
          st.output.count Line.header = 1) ∧
      st.output.getLast? = some Line.separator := by
  refine ⟨_, print_aberrations_with_two_two _ index1 fuel hfuel, ?_⟩
  have hiff := written_rows_eq_nil_iff (calculate_aberration radius ang n1 n2) index1
  have hrow := is_row_of_mem_written_rows (calculate_aberration radius ang n1 n2) index1
  by_cases hnil : written_rows (calculate_aberration radius ang n1 n2) index1 = []
  · have hall := hiff.mp hnil
    simp only [hnil, ↓reduceIte]
    refine ⟨⟨fun _ => hall, fun _ => by simp⟩, fun _ => rfl, fun h => absurd hall h, rfl⟩
  · have hnall := fun h => hnil (hiff.mpr h)
    simp only [hnil, ↓reduceIte]
    refine ⟨⟨fun hmem => ?_, fun h => absurd h hnall⟩, fun h => absurd h hnall, fun _ => ?_, ?_⟩
    · exfalso
      simp only [List.cons_append, List.mem_cons, List.mem_append, List.mem_singleton,
        reduceCtorEq, false_or, or_false] at hmem
      have := hrow _ (hmem.resolve_right (List.not_mem_nil _))
      simp [Line.is_row] at this
    · obtain ⟨first, rest, hfr⟩ := List.exists_cons_of_ne_nil hnil
      refine ⟨first, rest, ?_, ?_, ?_⟩
      · rw [← hfr]; exact hrow
      · rw [hfr]
      · rw [List.cons_append, List.count_cons_self, List.count_append]
        have h0 : List.count Line.header
            (written_rows (calculate_aberration radius ang n1 n2) index1) = 0 := by
          rw [List.count_eq_zero]
          intro hmem
          have := hrow _ hmem
          simp [Line.is_row] at this
        rw [h0]
        simp
    · rw [List.cons_append, ← List.cons_append, List.getLast?_append]
      rfl

theorem C7_all_zero_marker_witness :
    ∃ st, print_aberrations 3 1 30 1.5 0.5 1 = some st ∧
      (Line.all_zero ∈ st.output ↔ ∀ m ∈ enumerated_monomials,
        calculate_aberration 1 30 1.5 0.5 1 (10 * m.1 + m.2) = 0) ∧
      ((∀ m ∈ enumerated_monomials,
          calculate_aberration 1 30 1.5 0.5 1 (10 * m.1 + m.2) = 0) →
        st.output = [Line.all_zero, Line.separator]) ∧
      ((¬ ∀ m ∈ enumerated_monomials,
          calculate_aberration 1 30 1.5 0.5 1 (10 * m.1 + m.2) = 0) →
        ∃ first rest, (∀ l ∈ first :: rest, l.is_row = true) ∧
          st.output = Line.header :: first :: rest ++ [Line.separator] ∧
          st.output.count Line.header = 1) ∧
      st.output.getLast? = some Line.separator :=
  C7_all_zero_marker 3 1 30 1.5 0.5 1 (le_refl 3)

/-- Claim C8 (exact known values in Regime C): at n1 = 3 the evaluator returns
exactly 1 for row 1 term 10 and exactly s = radius*(pi/180)*angle for row 1
term 01; for radius = 2 and angle = 90 these values are 1 and pi. -/
theorem C8_regime_C_known_values (radius ang n2 : ℝ) (_hr : 0 < radius) :
    calculate_aberration radius ang 3 n2 1 10 = 1 ∧
    calculate_aberration radius ang 3 n2 1 1 = radius * (Real.pi / 180) * ang ∧
    calculate_aberration 2 90 3 n2 1 10 = 1 ∧
    calculate_aberration 2 90 3 n2 1 1 = Real.pi := by
  refine ⟨?_, ?_, ?_, ?_⟩ <;>
    simp only [calculate_aberration, lt_self_iff_false, gt_iff_lt, ↓reduceIte, Int.reduceEq]
  ring

theorem C8_regime_C_known_values_witness :
    (0 : ℝ) < 2 ∧ calculate_aberration 2 90 3 0 1 10 = 1 ∧
      calculate_aberration 2 90 3 0 1 1 = 2 * (Real.pi / 180) * 90 :=
  ⟨by norm_num, (C8_regime_C_known_values 2 90 0 (by norm_num)).1,
    (C8_regime_C_known_values 2 90 0 (by norm_num)).2.1⟩

/-- Claim C9 (degenerate angle): for every radius > 0 and every n1 and n2, in
Regime A, B and C alike, the evaluator returns 1 for angle 0, row 1, term 10. -/
theorem C9_zero_angle_row1_term10 (radius n1 n2 : ℝ) (_hr : 0 < radius) :
    calculate_aberration radius 0 n1 n2 1 10 = 1 := by
  unfold calculate_aberration
  simp only [mul_zero, ↓reduceIte, Real.cos_zero, Real.cosh_zero]
  split_ifs <;> rfl

theorem C9_zero_angle_row1_term10_witness :
    calculate_aberration 1 0 2 0 1 10 = 1 ∧ calculate_aberration 1 0 4 0 1 10 = 1 ∧
      calculate_aberration 1 0 3 0 1 10 = 1 :=
  ⟨C9_zero_angle_row1_term10 1 2 0 one_pos, C9_zero_angle_row1_term10 1 4 0 one_pos,
    C9_zero_angle_row1_term10 1 3 0 one_pos⟩

/-- Claim C10 (no failure modes): for every radius > 0 and all other inputs, every
operation on the path taken is defined: the evaluator over the checked
operations (non-zero divisors, positive arguments of `sqrt` and of the 1.5-power)
returns a value, and it is the value of `calculate_aberration`.  The divisors
and arguments are those of the source: `radius`; for n1 < 3 the argument
`3 - n1` and the divisors `s3n1`, `3*(n1-3)`, `3*pow(h*h*(3-n1), 1.5)`,
`3*h*pow(n1-3, 2)`, `3*s3n1`; for n1 > 3 the argument `n1 - 3` and the divisors
`s3n1`, `6*(n1-3)`, `6*pow(n1-3, 1.5)`, `6*h*pow(n1-3, 2)`, `3*s3n1`, `3*(n1-3)`,
`3*pow(n1-3, 1.5)`.  The angle is arbitrary, so zero is included. -/
theorem C10_all_operations_defined (radius ang n1 n2 : ℝ) (index1 index2 : ℤ)
    (hr : 0 < radius) :
    calculate_aberration_checked radius ang n1 n2 index1 index2 =
        some (calculate_aberration radius ang n1 n2 index1 index2) ∧
    radius ≠ 0 ∧
    (n1 < 3 → 0 < 3 - n1 ∧ 1 / radius * Real.sqrt (3 - n1) ≠ 0 ∧ 3 * (n1 - 3) ≠ 0 ∧
      0 < 1 / radius * (1 / radius) * (3 - n1) ∧
      3 * pow (1 / radius * (1 / radius) * (3 - n1)) 1.5 ≠ 0 ∧
      3 * (1 / radius) * pow (n1 - 3) 2 ≠ 0 ∧ 3 * (1 / radius * Real.sqrt (3 - n1)) ≠ 0) ∧
    (n1 > 3 → 0 < n1 - 3 ∧ 1 / radius * Real.sqrt (n1 - 3) ≠ 0 ∧ 6 * (n1 - 3) ≠ 0 ∧
      6 * pow (n1 - 3) 1.5 ≠ 0 ∧ 6 * (1 / radius) * pow (n1 - 3) 2 ≠ 0 ∧
      3 * (1 / radius * Real.sqrt (n1 - 3)) ≠ 0 ∧ 3 * (n1 - 3) ≠ 0 ∧
      3 * pow (n1 - 3) 1.5 ≠ 0) := by
  have hr0 : radius ≠ 0 := hr.ne'
  have hh : 1 / radius ≠ 0 := one_div_ne_zero hr0
  have hA : n1 < 3 → 0 < 3 - n1 ∧ 1 / radius * Real.sqrt (3 - n1) ≠ 0 ∧ 3 * (n1 - 3) ≠ 0 ∧
      0 < 1 / radius * (1 / radius) * (3 - n1) ∧
      3 * pow (1 / radius * (1 / radius) * (3 - n1)) 1.5 ≠ 0 ∧
      3 * (1 / radius) * pow (n1 - 3) 2 ≠ 0 ∧ 3 * (1 / radius * Real.sqrt (3 - n1)) ≠ 0 := by
    intro hlt
    have h1 : 0 < 3 - n1 := sub_pos.mpr hlt
    have h2 : 1 / radius * Real.sqrt (3 - n1) ≠ 0 :=
      mul_ne_zero hh (Real.sqrt_pos.mpr h1).ne'
    have h3 : n1 - 3 ≠ 0 := sub_ne_zero.mpr hlt.ne
    have h4 : 0 < 1 / radius * (1 / radius) * (3 - n1) :=
      mul_pos (mul_pos (one_div_pos.mpr hr) (one_div_pos.mpr hr)) h1
    refine ⟨h1, h2, mul_ne_zero three_ne_zero h3, h4, ?_, ?_, mul_ne_zero three_ne_zero h2⟩
    · exact mul_ne_zero three_ne_zero (Real.rpow_pos_of_pos h4 _).ne'
    · rw [pow_two_eq]
      exact mul_ne_zero (mul_ne_zero three_ne_zero hh) (pow_ne_zero 2 h3)
  have hB : n1 > 3 → 0 < n1 - 3 ∧ 1 / radius * Real.sqrt (n1 - 3) ≠ 0 ∧ 6 * (n1 - 3) ≠ 0 ∧
      6 * pow (n1 - 3) 1.5 ≠ 0 ∧ 6 * (1 / radius) * pow (n1 - 3) 2 ≠ 0 ∧
      3 * (1 / radius * Real.sqrt (n1 - 3)) ≠ 0 ∧ 3 * (n1 - 3) ≠ 0 ∧
      3 * pow (n1 - 3) 1.5 ≠ 0 := by
    intro hgt
    have h1 : 0 < n1 - 3 := sub_pos.mpr hgt
    have h2 : 1 / radius * Real.sqrt (n1 - 3) ≠ 0 :=
      mul_ne_zero hh (Real.sqrt_pos.mpr h1).ne'
    have h5 : pow (n1 - 3) 1.5 ≠ 0 := (Real.rpow_pos_of_pos h1 _).ne'
    refine ⟨h1, h2, mul_ne_zero (by norm_num) h1.ne', mul_ne_zero (by norm_num) h5, ?_,
      mul_ne_zero three_ne_zero h2, mul_ne_zero three_ne_zero h1.ne',
      mul_ne_zero three_ne_zero h5⟩
    rw [pow_two_eq]
    exact mul_ne_zero (mul_ne_zero (by norm_num) hh) (pow_ne_zero 2 h1.ne')
  refine ⟨?_, hr0, hA, hB⟩
  rcases lt_trichotomy n1 3 with hlt | heq | hgt
  · obtain ⟨h1, h2, h3, h4, h5, h6, h7⟩ := hA hlt
    simp only [calculate_aberration_checked, calculate_aberration, div_checked, sqrt_checked,
      pow15_checked, hr0, hlt, h1, h2, h3, h4, h5, h6, h7, ↓reduceIte, Option.pure_def,
      Option.bind_eq_bind, Option.some_bind, apply_ite some]
  · subst heq
    simp only [calculate_aberration_checked, calculate_aberration, div_checked, hr0,
      lt_self_iff_false, gt_iff_lt, ↓reduceIte, Option.pure_def, Option.bind_eq_bind,
      Option.some_bind, apply_ite some]
  · obtain ⟨h1, h2, h3, h4, h5, h6, h7, h8⟩ := hB hgt
    have hnlt : ¬ n1 < 3 := not_lt.mpr hgt.le
    simp only [calculate_aberration_checked, calculate_aberration, div_checked, sqrt_checked,
      pow15_checked, hr0, hnlt, hgt, gt_iff_lt, h1, h2, h3, h4, h5, h6, h7, h8, ↓reduceIte,
      Option.pure_def, Option.bind_eq_bind, Option.some_bind, apply_ite some]

theorem C10_all_operations_defined_witness :
    calculate_aberration_checked 1 0 2 0 1 11 = some (calculate_aberration 1 0 2 0 1 11) ∧
    calculate_aberration_checked 1 0 4 0 2 2 = some (calculate_aberration 1 0 4 0 2 2) :=
  ⟨(C10_all_operations_defined 1 0 2 0 1 11 one_pos).1,
    (C10_all_operations_defined 1 0 4 0 2 2 one_pos).1⟩

/-- Claim C11 (the all-zero path is unreachable): for every radius > 0, angle,
n1, n2 and each row in {1,2}, at least one of the two first-order coefficients
(terms 10 and 01) is non-zero, so `print_aberrations` never writes the line
ALL COMPONENTS ZERO. -/
theorem C11_all_zero_path_unreachable (fuel : ℕ) (radius ang n1 n2 : ℝ) (row : ℤ)
    (hr : 0 < radius) (hrow : row = 1 ∨ row = 2) (hfuel : 3 ≤ fuel) :
    (calculate_aberration radius ang n1 n2 row 10 ≠ 0 ∨
      calculate_aberration radius ang n1 n2 row 1 ≠ 0) ∧
    ∃ st, print_aberrations fuel radius ang n1 n2 row = some st ∧
      Line.all_zero ∉ st.output := by
  have hne := first_order_not_both_zero radius ang n1 n2 row hr hrow
  refine ⟨hne, _, print_aberrations_with_two_two _ row fuel hfuel, ?_⟩
  have hnil : written_rows (calculate_aberration radius ang n1 n2) row ≠ [] := by
    intro h
    have hall := (written_rows_eq_nil_iff _ row).mp h
    rcases hne with h10 | h1
    · exact h10 (by simpa using hall (1, 0) (by simp [enumerated_monomials]))
    · exact h1 (by simpa using hall (0, 1) (by simp [enumerated_monomials]))
  simp only [hnil, ↓reduceIte]
  intro hmem
  simp only [List.cons_append, List.mem_cons, List.mem_append, List.mem_singleton,
    reduceCtorEq, false_or, or_false] at hmem
  have hrow := is_row_of_mem_written_rows _ row _
    (hmem.resolve_right (List.not_mem_nil _))
  simp [Line.is_row] at hrow

theorem C11_all_zero_path_unreachable_witness :
    (calculate_aberration 1 30 1.5 0.5 2 10 ≠ 0 ∨ calculate_aberration 1 30 1.5 0.5 2 1 ≠ 0) ∧
    ∃ st, print_aberrations 3 1 30 1.5 0.5 2 = some st ∧ Line.all_zero ∉ st.output :=
  C11_all_zero_path_unreachable 3 1 30 1.5 0.5 2 one_pos (Or.inr rfl) (le_refl 3)

/-- Claim C12 fails for three variables: with `number_of_variables = 3` and
order 1, started at `index_array = (1,0,0,0)`, the loop does not end for any
fuel, and the third index vector it visits is `(0,1,1)`, whose sum is 2. -/
theorem C12_three_variables_counterexample :
    (¬ ∃ (fuel : ℕ) (fin : State ℝ),
      while_loop (calculate_aberration 1 30 1.5 0.5) 1 3 1 fuel
        { index_array := [1, 0, 0, 0], first_non_zero := 0, counter := 1, output := [],
          calls := [] } = some fin) ∧
    ((loop_body (calculate_aberration 1 30 1.5 0.5) 1 3 1)^[2]
        { index_array := [1, 0, 0, 0], first_non_zero := 0, counter := 1, output := [],
          calls := [] }).index_array.take 3 = [0, 1, 1] ∧
    ([0, 1, 1] : List ℤ).sum ≠ 1 := by
  refine ⟨?_, ?_, by decide⟩
  · rintro ⟨fuel, fin, h⟩
    rw [three_variable_never_exits _ 1 _ rfl fuel] at h
    exact Option.noConfusion h
  · rw [three_variable_run _ 1 _ rfl 0]
    rfl

/-- Claim C12 as amended (two variables): for `number_of_variables = 2` and
every order `o ≥ 1`, started at `index_array = (o, 0, 0)`, the loop ends (after
`n` executions of its body, for any fuel of at least `n`), and the index vectors
`(index_array[0], index_array[1])` seen by these executions are pairwise
distinct and are exactly the pairs of non-negative integers with sum `o`. -/
theorem C12_two_variables_visit_compositions {α : Type} [Zero α] [DecidableEq α]
    (eval : ℤ → ℤ → α) (index1 : ℤ) (o : ℕ) (st : State α) (ho : 1 ≤ o)
    (hst : st.index_array = [(o : ℤ), 0, 0]) :
    ∃ n : ℕ,
      (∀ j < n, ((loop_body eval index1 2 (o : ℤ))^[j] st).index_array.getD 2 0 = 0) ∧
      ((loop_body eval index1 2 (o : ℤ))^[n] st).index_array.getD 2 0 ≠ 0 ∧
      (∀ fuel, n ≤ fuel → while_loop eval index1 2 (o : ℤ) fuel st =
        some ((loop_body eval index1 2 (o : ℤ))^[n] st)) ∧
      ((List.range n).map
        (fun j => ((loop_body eval index1 2 (o : ℤ))^[j] st).index_array.take 2)).Nodup ∧
      (∀ v : List ℤ,
        v ∈ (List.range n).map
            (fun j => ((loop_body eval index1 2 (o : ℤ))^[j] st).index_array.take 2) ↔
          ∃ e0 e1 : ℕ, e0 + e1 = o ∧ v = [(e0 : ℤ), (e1 : ℤ)]) := by
  have hrun := two_variable_run eval index1 o st hst
  have hend := two_variable_run_end eval index1 o st ho hst
  have hcond : ∀ j < o + 1,
      ((loop_body eval index1 2 (o : ℤ))^[j] st).index_array.getD 2 0 = 0 := by
    intro j hj
    rw [hrun j (by omega)]
    rfl
  have hexit : ((loop_body eval index1 2 (o : ℤ))^[o + 1] st).index_array.getD 2 0 ≠ 0 := by
    rw [hend]
    simp
  have htake : ∀ j ≤ o,
      ((loop_body eval index1 2 (o : ℤ))^[j] st).index_array.take 2 = [(o : ℤ) - j, (j : ℤ)] := by
    intro j hj
    rw [hrun j hj]
    rfl
  refine ⟨o + 1, hcond, hexit, ?_, ?_, ?_⟩
  · intro fuel hfuel
    exact while_loop_eq_iterate eval index1 2 (o : ℤ) (o + 1) fuel st hcond hexit hfuel
  · refine List.Nodup.map_on ?_ (List.nodup_range _)
    intro x hx y hy hxy
    rw [List.mem_range] at hx hy
    rw [htake x (by omega), htake y (by omega)] at hxy
    simp only [List.cons.injEq, and_true] at hxy
    exact_mod_cast hxy.2
  · intro v
    rw [List.mem_map]
    constructor
    · rintro ⟨j, hj, rfl⟩
      rw [List.mem_range] at hj
      refine ⟨o - j, j, by omega, ?_⟩
      rw [htake j (by omega)]
      simp only [List.cons.injEq, and_true]
      omega
    · rintro ⟨e0, e1, hsum, rfl⟩
      refine ⟨e1, List.mem_range.mpr (by omega), ?_⟩
      rw [htake e1 (by omega)]
      simp only [List.cons.injEq, and_true]
      omega

theorem C12_two_variables_visit_compositions_witness :
    ∃ n : ℕ,
      (∀ j < n, ((loop_body (fun _ i => i) 1 2 ((3 : ℕ) : ℤ))^[j]
        ({ index_array := [3, 0, 0], first_non_zero := 0, counter := 1, output := [],
           calls := [] } : State ℤ)).index_array.getD 2 0 = 0) ∧
      ((loop_body (fun _ i => i) 1 2 ((3 : ℕ) : ℤ))^[n]
        ({ index_array := [3, 0, 0], first_non_zero := 0, counter := 1, output := [],
           calls := [] } : State ℤ)).index_array.getD 2 0 ≠ 0 ∧
      (∀ fuel, n ≤ fuel → while_loop (fun _ i => i) 1 2 ((3 : ℕ) : ℤ) fuel
          ({ index_array := [3, 0, 0], first_non_zero := 0, counter := 1, output := [],
             calls := [] } : State ℤ) =
        some ((loop_body (fun _ i => i) 1 2 ((3 : ℕ) : ℤ))^[n]
          { index_array := [3, 0, 0], first_non_zero := 0, counter := 1, output := [],
            calls := [] })) ∧
      ((List.range n).map
        (fun j => ((loop_body (fun _ i => i) 1 2 ((3 : ℕ) : ℤ))^[j]
          ({ index_array := [3, 0, 0], first_non_zero := 0, counter := 1, output := [],
             calls := [] } : State ℤ)).index_array.take 2)).Nodup ∧
      (∀ v : List ℤ,
        v ∈ (List.range n).map
            (fun j => ((loop_body (fun _ i => i) 1 2 ((3 : ℕ) : ℤ))^[j]
              ({ index_array := [3, 0, 0], first_non_zero := 0, counter := 1, output := [],
                 calls := [] } : State ℤ)).index_array.take 2) ↔
          ∃ e0 e1 : ℕ, e0 + e1 = 3 ∧ v = [(e0 : ℤ), (e1 : ℤ)]) :=
  C12_two_variables_visit_compositions (fun _ i => i) 1 3 _ (by decide) rfl

/-- Claim C13 (termination and completeness of the odometer for two variables):
for `number_of_variables = 2` and every order `o ≥ 1`, the round of the `for`
loop for `order = o` starts the `while` loop at `index_array = (o, 0, 0)`; the
execution number `j` of its body (`j = 0 .. o`) sees the exponents `(o - j, j)`
with `index_array[2] = 0`; after `o + 1` executions `index_array[2]` is
non-zero, so the loop ends after exactly `o + 1` executions: it returns with
any fuel of at least `o + 1` and runs out of fuel with less.  Every monomial
`(e0, e1)` of total order `o` is seen by exactly one execution. -/
theorem C13_two_variable_odometer {α : Type} [Zero α] [DecidableEq α] (eval : ℤ → ℤ → α)
    (index1 : ℤ) (o : ℕ) (prev init : State α) (ho : 1 ≤ o)
    (hinit : init = { prev with index_array := (List.replicate (2 + 1) 0).set 0 (o : ℤ) }) :
    init.index_array = [(o : ℤ), 0, 0] ∧
    (∀ j ≤ o, ((loop_body eval index1 2 (o : ℤ))^[j] init).index_array =
      [(o : ℤ) - j, (j : ℤ), 0]) ∧
    ((loop_body eval index1 2 (o : ℤ))^[o + 1] init).index_array.getD 2 0 ≠ 0 ∧
    (∀ fuel, o + 1 ≤ fuel → order_round eval index1 2 fuel prev o =
      some ((loop_body eval index1 2 (o : ℤ))^[o + 1] init)) ∧
    (∀ fuel, fuel ≤ o → order_round eval index1 2 fuel prev o = none) ∧
    (∀ e0 e1 : ℕ, e0 + e1 = o → ∃! j, j ≤ o ∧
      ((loop_body eval index1 2 (o : ℤ))^[j] init).index_array = [(e0 : ℤ), (e1 : ℤ), 0]) := by
  have hst : init.index_array = [(o : ℤ), 0, 0] := by
    rw [hinit]
    rfl
  have hround : ∀ fuel, order_round eval index1 2 fuel prev o =
      while_loop eval index1 2 (o : ℤ) fuel init := by
    intro fuel
    rw [hinit]
    rfl
  have hrun := two_variable_run eval index1 o init hst
  have hend := two_variable_run_end eval index1 o init ho hst
  have hcond : ∀ j ≤ o,
      ((loop_body eval index1 2 (o : ℤ))^[j] init).index_array.getD 2 0 = 0 := by
    intro j hj
    rw [hrun j hj]
    rfl
  have hexit : ((loop_body eval index1 2 (o : ℤ))^[o + 1] init).index_array.getD 2 0 ≠ 0 := by
    rw [hend]
    simp
  refine ⟨hst, hrun, hexit, ?_, ?_, ?_⟩
  · intro fuel hfuel
    rw [hround]
    exact while_loop_eq_iterate eval index1 2 (o : ℤ) (o + 1) fuel init
      (fun j hj => hcond j (by omega)) hexit hfuel
  · intro fuel hfuel
    rw [hround]
    exact while_loop_eq_none eval index1 2 (o : ℤ) fuel init
      (fun j hj => hcond j (by omega))
  · intro e0 e1 hsum
    refine ⟨e1, ⟨by omega, ?_⟩, ?_⟩
    · rw [hrun e1 (by omega)]
      simp only [List.cons.injEq, and_true]
      omega
    · rintro j ⟨hj, hjeq⟩
      rw [hrun j hj] at hjeq
      simp only [List.cons.injEq, and_true] at hjeq
      exact_mod_cast hjeq.2

theorem C13_two_variable_odometer_witness :
    order_round (fun _ i => i) 1 2 4
        ({ index_array := [], first_non_zero := 0, counter := 1, output := [],
           calls := [] } : State ℤ) 3 =
      some ((loop_body (fun _ i => i) 1 2 ((3 : ℕ) : ℤ))^[3 + 1]
        { index_array := [3, 0, 0], first_non_zero := 0, counter := 1, output := [],
          calls := [] }) ∧
    order_round (fun _ i => i) 1 2 3
        ({ index_array := [], first_non_zero := 0, counter := 1, output := [],
           calls := [] } : State ℤ) 3 = none ∧
    ((loop_body (fun _ i => i) 1 2 ((3 : ℕ) : ℤ))^[2]
        ({ index_array := [3, 0, 0], first_non_zero := 0, counter := 1, output := [],
           calls := [] } : State ℤ)).index_array = [((3 : ℕ) : ℤ) - (2 : ℕ), ((2 : ℕ) : ℤ), 0] :=
  ⟨(C13_two_variable_odometer (fun _ i => i) 1 3 _ _ (by decide) rfl).2.2.2.1 4 (le_refl 4),
    (C13_two_variable_odometer (fun _ i => i) 1 3
      ({ index_array := [], first_non_zero := 0, counter := 1, output := [],
         calls := [] } : State ℤ)
      { index_array := [3, 0, 0], first_non_zero := 0, counter := 1, output := [],
        calls := [] } (by decide) rfl).2.2.2.2.1 3 (le_refl 3),
    (C13_two_variable_odometer (fun _ i => i) 1 3
      ({ index_array := [], first_non_zero := 0, counter := 1, output := [],
         calls := [] } : State ℤ)
      { index_array := [3, 0, 0], first_non_zero := 0, counter := 1, output := [],
        calls := [] } (by decide) rfl).2.1 2 (by decide)⟩

/-- Claim C14 (unit determinant of the first-order map) fails on the code in
Regime B: at radius = 1, angle = 180/pi degrees (s = 1), n1 = 4, n2 = 0 the
determinant (x|x)(a|a) - (x|a)(a|x) is `1 + 2 sinh(1)^2`, which is greater
than 1. -/
theorem C14_determinant_regime_B_not_one :
    calculate_aberration 1 (180 / Real.pi) 4 0 1 10 *
        calculate_aberration 1 (180 / Real.pi) 4 0 2 1 -
      calculate_aberration 1 (180 / Real.pi) 4 0 1 1 *
        calculate_aberration 1 (180 / Real.pi) 4 0 2 10 = 1 + 2 * Real.sinh 1 ^ 2 ∧
    1 < calculate_aberration 1 (180 / Real.pi) 4 0 1 10 *
        calculate_aberration 1 (180 / Real.pi) 4 0 2 1 -
      calculate_aberration 1 (180 / Real.pi) 4 0 1 1 *
        calculate_aberration 1 (180 / Real.pi) 4 0 2 10 := by
  have hdet := first_order_determinant_of_gt 1 (180 / Real.pi) 4 0 one_pos (by norm_num)
  have harg : 1 / 1 * Real.sqrt (4 - 3) * (1 * (Real.pi / 180) * (180 / Real.pi)) = (1 : ℝ) := by
    rw [show (4 : ℝ) - 3 = 1 by norm_num, Real.sqrt_one, div_one, one_mul, one_mul,
      one_mul, fixture_arc_length]
  rw [harg] at hdet
  refine ⟨hdet, ?_⟩
  rw [hdet]
  have hs : 0 < Real.sinh 1 := Real.sinh_pos_iff.mpr one_pos
  nlinarith [sq_pos_of_pos hs]

/-- Claim C15 (a zero-length deflector is the identity map): for every
radius > 0, n1 and n2 and angle 0 the evaluator returns 1 for (row 2, term 01)
and exactly 0 for (1,01), (1,20), (1,11), (1,02), (2,10), (2,20), (2,11),
(2,02); hence `print_aberrations` writes exactly one data row for each row
selector: the output is the column header, one data row with index 1,
coefficient 1 and order 1, and the separator. -/
theorem C15_zero_angle_identity (fuel : ℕ) (radius n1 n2 : ℝ) (_hr : 0 < radius)
    (hfuel : 3 ≤ fuel) :
    calculate_aberration radius 0 n1 n2 2 1 = 1 ∧
    calculate_aberration radius 0 n1 n2 1 1 = 0 ∧
    calculate_aberration radius 0 n1 n2 1 20 = 0 ∧
    calculate_aberration radius 0 n1 n2 1 11 = 0 ∧
    calculate_aberration radius 0 n1 n2 1 2 = 0 ∧
    calculate_aberration radius 0 n1 n2 2 10 = 0 ∧
    calculate_aberration radius 0 n1 n2 2 20 = 0 ∧
    calculate_aberration radius 0 n1 n2 2 11 = 0 ∧
    calculate_aberration radius 0 n1 n2 2 2 = 0 ∧
    (∃ st index_string, print_aberrations fuel radius 0 n1 n2 1 = some st ∧
      st.output = [Line.header, Line.row 1 1 1 index_string, Line.separator] ∧
      (st.output.filter Line.is_row).length = 1) ∧
    (∃ st index_string, print_aberrations fuel radius 0 n1 n2 2 = some st ∧
      st.output = [Line.header, Line.row 1 1 1 index_string, Line.separator] ∧
      (st.output.filter Line.is_row).length = 1) := by
  obtain ⟨h110, h11, h120, h111, h12, h210, h21, h220, h211, h22⟩ :=
    zero_angle_values radius n1 n2
  have hw1 : written_rows (calculate_aberration radius 0 n1 n2) 1 = [Line.row 1 1 1 [0]] := by
    simp [written_rows, enumerated_monomials, List.filter, List.enumFrom, h110, h11, h120,
      h111, h12]
  have hw2 : written_rows (calculate_aberration radius 0 n1 n2) 2 = [Line.row 1 1 1 [1]] := by
    simp [written_rows, enumerated_monomials, List.filter, List.enumFrom, h210, h21, h220,
      h211, h22]
  refine ⟨h21, h11, h120, h111, h12, h210, h220, h211, h22, ?_, ?_⟩
  · refine ⟨_, [0], print_aberrations_with_two_two _ 1 fuel hfuel, ?_, ?_⟩
    · simp [hw1]
    · simp [hw1, Line.is_row]
  · refine ⟨_, [1], print_aberrations_with_two_two _ 2 fuel hfuel, ?_, ?_⟩
    · simp [hw2]
    · simp [hw2, Line.is_row]

theorem C15_zero_angle_identity_witness :
    (∃ st index_string, print_aberrations 3 1 0 4 0.5 1 = some st ∧
      st.output = [Line.header, Line.row 1 1 1 index_string, Line.separator] ∧
      (st.output.filter Line.is_row).length = 1) ∧
    (∃ st index_string, print_aberrations 3 1 0 4 0.5 2 = some st ∧
      st.output = [Line.header, Line.row 1 1 1 index_string, Line.separator] ∧
      (st.output.filter Line.is_row).length = 1) ∧
    calculate_aberration 1 0 4 0.5 1 2 = 0 :=
  ⟨(C15_zero_angle_identity 3 1 4 0.5 one_pos (le_refl 3)).2.2.2.2.2.2.2.2.2.1,
    (C15_zero_angle_identity 3 1 4 0.5 one_pos (le_refl 3)).2.2.2.2.2.2.2.2.2.2,
    (C15_zero_angle_identity 3 1 4 0.5 one_pos (le_refl 3)).2.2.2.2.1⟩

/-- Claim C16 (dimensional homogeneity in the radius): for every lambda > 0,
radius > 0, angle, n1, n2, row in {1,2} and monomial (e0, e1) among (1,0), (0,1),
(2,0), (1,1), (0,2), scaling the radius by lambda multiplies the coefficient by
lambda^d with the integer exponent d = (1 if row = 1 else 0) - e0. -/
theorem C16_radius_homogeneity (lam radius ang n1 n2 : ℝ) (row e0 e1 : ℤ)
    (hlam : 0 < lam) (hr : 0 < radius) (hrow : row = 1 ∨ row = 2)
    (hmon : (e0 = 1 ∧ e1 = 0) ∨ (e0 = 0 ∧ e1 = 1) ∨ (e0 = 2 ∧ e1 = 0) ∨
      (e0 = 1 ∧ e1 = 1) ∨ (e0 = 0 ∧ e1 = 2)) :
    calculate_aberration (lam * radius) ang n1 n2 row (10 * e0 + e1) =
      lam ^ ((if row = 1 then 1 else 0) - e0 : ℤ) *
        calculate_aberration radius ang n1 n2 row (10 * e0 + e1) := by
  obtain ⟨h110, h11, h120, h111, h12, h210, h21, h220, h211, h22⟩ :=
    scale_radius lam radius ang n1 n2 hlam hr
  rcases hrow with rfl | rfl <;>
    rcases hmon with ⟨rfl, rfl⟩ | ⟨rfl, rfl⟩ | ⟨rfl, rfl⟩ | ⟨rfl, rfl⟩ | ⟨rfl, rfl⟩ <;>
    norm_num [zpow_neg] <;>
    assumption

theorem C16_radius_homogeneity_witness :
    calculate_aberration (2 * 1) 30 1.5 0.5 2 (10 * 2 + 0) =
      2 ^ ((if (2 : ℤ) = 1 then 1 else 0) - 2 : ℤ) *
        calculate_aberration 1 30 1.5 0.5 2 (10 * 2 + 0) :=
  C16_radius_homogeneity 2 1 30 1.5 0.5 2 2 0 two_pos one_pos (Or.inr rfl)
    (Or.inr (Or.inr (Or.inl ⟨rfl, rfl⟩)))

end Edabrt
